import Mathlib

/-!
# slackcat: the batched delivery pipeline

A shallow embedding of `slackcat.go` (type `SlackCat` and its methods
`lookupSlackID`, `trap`, `exit`, `addToStreamQ`, `processStreamQ`, `postMsg`,
`postFile`) and the properties its specification states about them.

Go strings are sequences of characters.  Every call that touches the outside
world (the queue, the Slack API, the console, the clock, `os.Exit`) appends an
`Effect` to the trace of the `World`; a program is a function from the world
to a `Step`, which is either a normal return or the termination of the whole
process by `os.Exit`.

The goroutines of stream mode are interleaved by a schedule: a turn is one
step of `addToStreamQ` or one statement of `processStreamQ`, so that the calls
of the other goroutine on the queue can fall between any two calls of the
delivery loop on it.
-/

namespace Slackcat

/-! ## The Go standard library calls used by the source -/

/-- The loop of `strings.Replace(s, old, new, -1)` for a non-empty `old`:
scan left to right, `skip` counts the characters of a match that was just
replaced and are still to be stepped over; at every other position a match of
`old` is replaced by `new` and the scan resumes right after the match. -/
def replaceScan (old new : List Char) : Nat → List Char → List Char
  | _, [] => []
  | skip + 1, _ :: cs => replaceScan old new skip cs
  | 0, c :: cs =>
      if old.isPrefixOf (c :: cs) then new ++ replaceScan old new (old.length - 1) cs
      else c :: replaceScan old new 0 cs

/-- Go `strings.Replace(s, old, new, -1)`: every non-overlapping occurrence of
`old` in `s`, leftmost first, is replaced by `new`.  When `old` equals `new`
the text is returned as it is; an empty `old` matches before every character
and at the end of the text.  Go matches bytes; the patterns of the source are
single ASCII characters, for which matching bytes and matching characters of a
UTF-8 text agree. -/
def stringsReplaceAll (s old new : String) : String :=
  if old = new then s
  else if old.data = [] then ⟨new.data ++ s.data.flatMap (fun c => c :: new.data)⟩
  else ⟨replaceScan old.data new.data 0 s.data⟩

/-- Go `strings.Join(elems, sep)`. -/
def stringsJoin (elems : List String) (sep : String) : String :=
  sep.intercalate elems

/-- Go `strconv.Itoa` on a length (never negative). -/
def strconvItoa (n : Nat) : String :=
  toString n

/-! ## The line queue -/

/-- Modelled from the spec: the type `StreamQ` and its methods (`newStreamQ`,
`Add`, `IsEmpty`, `Flush`, `Ack`) are not in `slackcat.go`.  The spec's
LineQueue owns an ordered live buffer of pending lines and a staging area for
the batch that was flushed and is not acknowledged yet. -/
structure StreamQ where
  live : List String
  staged : List String
  deriving DecidableEq, Repr

/-- Modelled from the spec: `newStreamQ`, the queue created once at process
start, holding nothing. -/
def newStreamQ : StreamQ :=
  { live := [], staged := [] }

/-- Modelled from the spec: `Add(line)` appends a line to the tail of the live
buffer. -/
def StreamQ.Add (q : StreamQ) (line : String) : StreamQ :=
  { q with live := q.live ++ [line] }

/-- Modelled from the spec: `IsEmpty()` is true iff both the live buffer and
any staged batch are empty. -/
def StreamQ.IsEmpty (q : StreamQ) : Bool :=
  q.live.isEmpty && q.staged.isEmpty

/-- Modelled from the spec: `Flush()` moves the entire current live buffer
into the staged batch and returns that batch; a flush before the Ack of an
earlier one merges into the outstanding stage, so that no staged line is
overwritten. -/
def StreamQ.Flush (q : StreamQ) : List String × StreamQ :=
  (q.staged ++ q.live, { live := [], staged := q.staged ++ q.live })

/-- Modelled from the spec: `Ack()` discards the currently staged batch; with
nothing staged it changes nothing. -/
def StreamQ.Ack (q : StreamQ) : StreamQ :=
  { q with staged := [] }

/-! ## Effects, worlds and programs -/

/-- One observable call made by the process, with its arguments and, for a
call that answers, its result. -/
inductive Effect where
  /-- Call of `sc.queue.IsEmpty()` and what it returned. -/
  | qIsEmpty (result : Bool)
  /-- Call of `sc.queue.Add(line)`. -/
  | qAdd (line : String)
  /-- Call of `sc.queue.Flush()` and the batch it returned. -/
  | qFlush (batch : List String)
  /-- Call of `sc.queue.Ack()`. -/
  | qAck
  /-- Entry of `sc.postMsg(msglines)`. -/
  | postMsg (msglines : List String)
  /-- Call of `sc.api.ChatPostMessage(channelID, msg, sc.opts)` and the error it
  returned (`none` is Go's `nil`). -/
  | chatPostMessage (channelID msg : String) (err : Option String)
  /-- Call of `sc.api.FilesUpload` with the fields of its option struct (file path, file
  name, file type, title, initial comment, channels) and the error it
  returned. -/
  | filesUpload (filepath filename filetype title comment : String)
      (channels : List String) (err : Option String)
  /-- One of the three name lookups (`FindChannelByName`, `FindGroupByName`,
  `FindImByName`), the name asked for and whether it succeeded. -/
  | find (namespaceName name : String) (found : Bool)
  /-- Call of `output(s)`: a status line for the operator. -/
  | output (s : String)
  /-- The error reported by `exitErr` before it terminates the process. -/
  | reportErr (err : String)
  /-- Call of `time.Sleep(seconds * time.Second)`. -/
  | sleep (seconds : Nat)
  /-- Statement `go sc.exit()`: the drain watcher is started as a goroutine. -/
  | goExit
  /-- Call of `os.Exit(status)`. -/
  | osExit (status : Nat)
  deriving DecidableEq, Repr

/-- The mutable state of the process: the queue of the `SlackCat` value and
the calls made so far, oldest first. -/
structure World where
  queue : StreamQ
  trace : List Effect
  deriving DecidableEq, Repr

/-- The world at process start: the queue of `newStreamQ()`, nothing done. -/
def World.init : World :=
  { queue := newStreamQ, trace := [] }

/-- How a call ends: it returns a value, or the process was terminated by
`os.Exit(status)` inside it. -/
inductive Step (α : Type) where
  | ret (a : α) (w : World)
  | halt (status : Nat) (w : World)
  deriving DecidableEq, Repr

/-- The world a call ends in. -/
def Step.world {α : Type} : Step α → World
  | .ret _ w => w
  | .halt _ w => w

/-- The exit status, when the process was terminated. -/
def Step.status {α : Type} : Step α → Option Nat
  | .ret _ _ => none
  | .halt c _ => some c

/-- A Go function body: a world transformer that may terminate the process. -/
def Prog (α : Type) : Type :=
  World → Step α

/-- Return without touching the world. -/
def Prog.pure {α : Type} (a : α) : Prog α :=
  fun w => .ret a w

/-- Sequencing: nothing runs after `os.Exit`. -/
def Prog.bind {α β : Type} (m : Prog α) (f : α → Prog β) : Prog β :=
  fun w =>
    match m w with
    | .ret a w1 => f a w1
    | .halt c w1 => .halt c w1

instance : Monad Prog where
  pure := Prog.pure
  bind := Prog.bind

/-- Record one call in the trace. -/
def emit (e : Effect) : Prog Unit :=
  fun w => .ret () { w with trace := w.trace ++ [e] }

/-- Go `os.Exit(status)`: the process ends here. -/
def osExit {α : Type} (status : Nat) : Prog α :=
  fun w => .halt status { w with trace := w.trace ++ [Effect.osExit status] }

/-- Go `time.Sleep(seconds * time.Second)`. -/
def timeSleep (seconds : Nat) : Prog Unit :=
  emit (Effect.sleep seconds)

/-- The call `sc.queue.IsEmpty()`. -/
def qIsEmpty : Prog Bool :=
  fun w => .ret w.queue.IsEmpty { w with trace := w.trace ++ [Effect.qIsEmpty w.queue.IsEmpty] }

/-- The call `sc.queue.Add(line)`. -/
def qAdd (line : String) : Prog Unit :=
  fun w => .ret () { queue := w.queue.Add line, trace := w.trace ++ [Effect.qAdd line] }

/-- The call `sc.queue.Flush()`. -/
def qFlush : Prog (List String) :=
  fun w => .ret w.queue.Flush.1
    { queue := w.queue.Flush.2, trace := w.trace ++ [Effect.qFlush w.queue.Flush.1] }

/-- The call `sc.queue.Ack()`. -/
def qAck : Prog Unit :=
  fun w => .ret () { queue := w.queue.Ack, trace := w.trace ++ [Effect.qAck] }

/-! ## What the source takes from the rest of the package -/

/-- The Slack client `sc.api`, seen from the caller: what each call answers.
An error result is `some text`, Go's `nil` error is `none`; a lookup answers
the id of what it found, or nothing when it returned an error.  The answer to
a post or an upload may depend on every call made before it. -/
structure Slack where
  FindChannelByName : String → Option String
  FindGroupByName : String → Option String
  FindImByName : String → Option String
  ChatPostMessage : List Effect → String → String → Option String
  FilesUpload : List Effect → String → String → String → String → String →
    List String → Option String

/-- The fields of the Go struct `SlackCat` that the methods read: the client,
the id of the channel and its name.  The queue lives in the `World`. -/
structure SlackCat where
  api : Slack
  channelID : String
  channelName : String

/-- Modelled from the spec: the package-level names that `slackcat.go` uses
and does not declare.  `noop` is the dry-run switch; `errStatus` is the exit
status of `exitErr`, which the spec only calls non-zero; `errText msg err
appendErr` is the text `failOnError` reports for a non-nil error. -/
structure Globals where
  noop : Bool
  errStatus : Nat
  errText : String → String → Bool → String

/-- The clock readings of `postFile`: `time.Now().Unix()` and the text of
`strconv.FormatFloat(time.Since(start).Seconds(), 'f', 3, 64)`. -/
structure Clock where
  unix : Int
  elapsed : String

/-- Modelled from the spec: `output(s)` is not in `slackcat.go`; it emits a
human-readable status line. -/
def output (s : String) : Prog Unit :=
  emit (Effect.output s)

/-- Modelled from the spec: `exitErr(err)` is not in `slackcat.go`; it reports
the error and terminates the process at once with a non-zero status. -/
def exitErr (g : Globals) (err : String) : Prog Unit := do
  emit (Effect.reportErr err)
  osExit g.errStatus

/-- Modelled from the spec: `failOnError(err, msg, appendErr)` is not in
`slackcat.go`; a non-nil error is fatal (reported, then the process exits with
a non-zero status), a nil error lets the caller go on. -/
def failOnError (g : Globals) (err : Option String) (msg : String) (appendErr : Bool) :
    Prog Unit :=
  match err with
  | none => pure ()
  | some e => exitErr g (g.errText msg e appendErr)

/-- The call `api.FindChannelByName(sc.channelName)`. -/
def findChannelByName (sc : SlackCat) : Prog (Option String) :=
  fun w => .ret (sc.api.FindChannelByName sc.channelName)
    { w with trace := w.trace ++
        [Effect.find "channel" sc.channelName (sc.api.FindChannelByName sc.channelName).isSome] }

/-- The call `api.FindGroupByName(sc.channelName)`. -/
def findGroupByName (sc : SlackCat) : Prog (Option String) :=
  fun w => .ret (sc.api.FindGroupByName sc.channelName)
    { w with trace := w.trace ++
        [Effect.find "group" sc.channelName (sc.api.FindGroupByName sc.channelName).isSome] }

/-- The call `api.FindImByName(sc.channelName)`. -/
def findImByName (sc : SlackCat) : Prog (Option String) :=
  fun w => .ret (sc.api.FindImByName sc.channelName)
    { w with trace := w.trace ++
        [Effect.find "im" sc.channelName (sc.api.FindImByName sc.channelName).isSome] }

/-- The call `sc.api.ChatPostMessage(sc.channelID, msg, sc.opts)`. -/
def chatPostMessage (sc : SlackCat) (msg : String) : Prog (Option String) :=
  fun w => .ret (sc.api.ChatPostMessage w.trace sc.channelID msg)
    { w with trace := w.trace ++
        [Effect.chatPostMessage sc.channelID msg (sc.api.ChatPostMessage w.trace sc.channelID msg)] }

/-- The call `sc.api.FilesUpload(&slack.FilesUploadOpt{...})`. -/
def filesUpload (sc : SlackCat) (filepath filename filetype title comment : String)
    (channels : List String) : Prog (Option String) :=
  fun w => .ret (sc.api.FilesUpload w.trace filepath filename filetype title comment channels)
    { w with trace := w.trace ++
        [Effect.filesUpload filepath filename filetype title comment channels
          (sc.api.FilesUpload w.trace filepath filename filetype title comment channels)] }

/-- What the other goroutines did to the queue in the meantime. -/
def interfere (others : StreamQ → StreamQ) : Prog Unit :=
  fun w => .ret () { w with queue := others w.queue }

/-! ## The methods of `SlackCat` -/

/-- Source `lookupSlackID`: the id for the channel, group or im of that name,
tried in this order. -/
def SlackCat.lookupSlackID (sc : SlackCat) (g : Globals) : Prog String := do
  match (← findChannelByName sc) with
  | some channelId => pure channelId
  | none =>
    match (← findGroupByName sc) with
    | some groupId => pure groupId
    | none =>
      match (← findImByName sc) with
      | some imId => pure imId
      | none => do
        exitErr g "No such channel, group, or im"
        pure ""

/-- Source `exit`, one round of its endless `for` loop: leave with status 0
when the queue is empty, else tell the operator and sleep three seconds. -/
def SlackCat.exitPoll (_sc : SlackCat) : Prog Unit := do
  if (← qIsEmpty) then
    osExit 0
  else
    output "flushing remaining messages to Slack..."
    timeSleep 3

/-- Source `exit`: the rounds of the loop, one for each entry of `others`,
which says what the other goroutines do to the queue while the watcher sleeps
after that round. -/
def SlackCat.exit (sc : SlackCat) : List (StreamQ → StreamQ) → Prog Unit
  | [] => pure ()
  | others :: rest => do
    sc.exitPoll
    interfere others
    SlackCat.exit sc rest

/-- Source `trap`, the body of its `for sig := range sc.shutdown` loop for one
signal (given by the text of `sig.String()`); it returns the new value of
`sigcount`. -/
def SlackCat.trapSignal (_sc : SlackCat) (g : Globals) (sigcount : Nat) (sig : String) :
    Prog Nat := do
  if sigcount > 0 then
    exitErr g "aborted"
  output ("got signal: " ++ sig)
  output "press ctrl+c again to exit immediately"
  let sigcount := sigcount + 1
  emit Effect.goExit
  pure sigcount

/-- The loop of `trap` over the signals delivered on `sc.shutdown`, from a
given value of `sigcount`; it returns the value of `sigcount` when the
handler waits for the next signal. -/
def SlackCat.trapLoop (sc : SlackCat) (g : Globals) : Nat → List String → Prog Nat
  | sigcount, [] => pure sigcount
  | sigcount, sig :: rest => do
    let sigcount ← sc.trapSignal g sigcount sig
    SlackCat.trapLoop sc g sigcount rest

/-- Source `trap`: `sigcount := 0`, then the loop. -/
def SlackCat.trap (sc : SlackCat) (g : Globals) (signals : List String) : Prog Nat :=
  sc.trapLoop g 0 signals

/-- Source `postMsg`. -/
def SlackCat.postMsg (sc : SlackCat) (g : Globals) (msglines : List String) : Prog Unit := do
  emit (Effect.postMsg msglines)
  let msg := stringsJoin msglines "\n"
  let msg := stringsReplaceAll msg "&" "%26amp%3B"
  let msg := stringsReplaceAll msg "<" "%26lt%3B"
  let msg := stringsReplaceAll msg ">" "%26gt%3B"
  let err ← chatPostMessage sc msg
  failOnError g err "" true
  let count := strconvItoa msglines.length
  output ("posted " ++ count ++ " message lines to " ++ sc.channelName)

/-- Source `processStreamQ`, one activation up to its tail call. -/
def SlackCat.processStreamQTick (sc : SlackCat) (g : Globals) : Prog Unit := do
  if !(← qIsEmpty) then
    let msglines ← qFlush
    if g.noop then
      output ("skipped posting of " ++ strconvItoa msglines.length ++ " message lines to " ++
        sc.channelName)
    else
      sc.postMsg g msglines
    qAck
  timeSleep 3

/-- Source `processStreamQ`: the function calls itself for ever; `ticks`
bounds the number of activations that are run. -/
def SlackCat.processStreamQ (sc : SlackCat) (g : Globals) : Nat → Prog Unit
  | 0 => pure ()
  | ticks + 1 => do
    sc.processStreamQTick g
    SlackCat.processStreamQ sc g ticks

/-- Source `addToStreamQ`, one step of the goroutine given the lines still to
come on the channel: the next line is added to the queue; once the channel is
closed the goroutine is in `sc.exit()` and does one round of it.  It returns
the lines that remain. -/
def SlackCat.addToStreamQStep (sc : SlackCat) : List String → Prog (List String)
  | line :: rest => do
    qAdd line
    pure rest
  | [] => do
    sc.exitPoll
    pure []

/-- Source `postFile`. -/
def SlackCat.postFile (sc : SlackCat) (g : Globals) (clock : Clock)
    (filePath fileName fileType fileComment : String) : Prog Unit := do
  let fileName := if fileName = "" then toString clock.unix else fileName
  if g.noop then
    output ("skipping upload of file " ++ fileName ++ " to " ++ sc.channelName)
  else
    let err ← filesUpload sc filePath fileName fileType fileName fileComment [sc.channelID]
    failOnError g err "error uploading file to Slack" true
    output ("file " ++ fileName ++ " uploaded to " ++ sc.channelName ++ " (" ++ clock.elapsed ++
      "s)")
    osExit 0

/-! ## The goroutines together -/

/-- Where the delivery goroutine stands inside one activation of
`processStreamQ`: the next statement it will run.  `atPost` carries the local
variable `msglines`. -/
inductive Pc where
  | atIsEmpty
  | atFlush
  | atPost (msglines : List String)
  | atAck
  | atSleep
  deriving DecidableEq, Repr

/-- Source `processStreamQ`, one statement at a time: the statement at `pc` is
run and the next position is returned.  Each step makes at most one call on
the queue, so that the other goroutines can run between any two of them; the
statement between `Flush` and `Ack` (the report of dry-run mode, or `postMsg`)
makes none.  The sleep is followed by the tail call, which starts the next
activation. -/
def SlackCat.processStreamQStep (sc : SlackCat) (g : Globals) : Pc → Prog Pc
  | Pc.atIsEmpty => do
    if !(← qIsEmpty) then
      pure Pc.atFlush
    else
      pure Pc.atSleep
  | Pc.atFlush => do
    let msglines ← qFlush
    pure (Pc.atPost msglines)
  | Pc.atPost msglines => do
    if g.noop then
      output ("skipped posting of " ++ strconvItoa msglines.length ++ " message lines to " ++
        sc.channelName)
    else
      sc.postMsg g msglines
    pure Pc.atAck
  | Pc.atAck => do
    qAck
    pure Pc.atSleep
  | Pc.atSleep => do
    timeSleep 3
    pure Pc.atIsEmpty

/-- The steps of one activation of `processStreamQ` from `pc` to its end (the
position is back at `atIsEmpty`), with nothing else running in between;
`fuel` bounds the number of steps, five are enough. -/
def SlackCat.finishTick (sc : SlackCat) (g : Globals) : Nat → Pc → Prog Unit
  | 0, _ => pure ()
  | fuel + 1, pc => do
    let next ← sc.processStreamQStep g pc
    if next = Pc.atIsEmpty then
      pure ()
    else
      SlackCat.finishTick sc g fuel next

/-- The two goroutines of stream mode: the lines still to come on the channel
of `addToStreamQ`, and the position of the delivery loop. -/
structure Threads where
  lines : List String
  pc : Pc
  deriving DecidableEq, Repr

/-- Which goroutine runs next: the producer (`addToStreamQ`) or the delivery
loop (`processStreamQ`). -/
inductive Turn where
  | producer
  | delivery
  deriving DecidableEq, Repr

/-- One turn: a step of `addToStreamQ` (one `Add`, or one round of `exit` once
the channel is closed), or one statement of `processStreamQ`. -/
def SlackCat.turn (sc : SlackCat) (g : Globals) : Turn → Threads → Prog Threads
  | Turn.producer, th => do
    let rest ← sc.addToStreamQStep th.lines
    pure { th with lines := rest }
  | Turn.delivery, th => do
    let next ← sc.processStreamQStep g th.pc
    pure { th with pc := next }

/-- A schedule of turns, run from the given state of the goroutines; nothing
runs once the process has exited. -/
def SlackCat.run (sc : SlackCat) (g : Globals) : List Turn → Threads → Prog Threads
  | [], th => pure th
  | t :: rest, th => do
    let th1 ← sc.turn g t th
    SlackCat.run sc g rest th1

/-! ## Definitions used to state the properties -/

/-- The value of `msg` when `postMsg` calls `ChatPostMessage`: the lines joined
with a newline, then the three `strings.Replace` passes of the source, in the
order of the source. -/
def msgText (msglines : List String) : String :=
  stringsReplaceAll
    (stringsReplaceAll (stringsReplaceAll (stringsJoin msglines "\n") "&" "%26amp%3B")
      "<" "%26lt%3B")
    ">" "%26gt%3B"

/-- The spec's escaping of one character: each of the three markup characters
becomes its percent-encoded HTML entity, every other character stays. -/
def escapeChar (c : Char) : List Char :=
  if c = '&' then "%26amp%3B".data
  else if c = '<' then "%26lt%3B".data
  else if c = '>' then "%26gt%3B".data
  else [c]

/-- The spec's batch encoding: a single pass over the text, character by
character. -/
def escapeOnce (s : String) : String :=
  ⟨s.data.flatMap escapeChar⟩

/-- The text of a call of `ChatPostMessage`, nothing for any other effect. -/
def postedText : Effect → Option String
  | Effect.chatPostMessage _ msg _ => some msg
  | _ => none

/-- The texts handed to `ChatPostMessage` in a trace, oldest first. -/
def postedTexts (trace : List Effect) : List String :=
  trace.filterMap postedText

/-- The batch of a call of `postMsg`, nothing for any other effect. -/
def handedBatch : Effect → Option (List String)
  | Effect.postMsg msglines => some msglines
  | _ => none

/-- The batches handed to `postMsg` in a trace, oldest first. -/
def handed (trace : List Effect) : List (List String) :=
  trace.filterMap handedBatch

/-- The accounting of the lines at a state of the two goroutines: what was
handed to `postMsg`, then the staged batch, the live buffer and the lines
still to come make up the input, in this order.  Before the post the local
`msglines` is the staged batch; after the post the staged batch is already
among what was handed over. -/
def accounted (input : List String) (th : Threads) (w : World) : Prop :=
  match th.pc with
  | Pc.atPost msglines =>
      msglines = w.queue.staged ∧
        (handed w.trace).flatten ++ (w.queue.staged ++ (w.queue.live ++ th.lines)) = input
  | Pc.atAck => (handed w.trace).flatten ++ (w.queue.live ++ th.lines) = input
  | _ => (handed w.trace).flatten ++ (w.queue.staged ++ (w.queue.live ++ th.lines)) = input

/-- The effects a call added to the trace of the world it started in. -/
def Step.since {α : Type} (r : Step α) (w : World) : List Effect :=
  r.world.trace.drop w.trace.length

/-- Where the delivery loop stands in its flush-and-post cycle: no batch in
flight, a batch flushed and not posted, or a batch posted and not
acknowledged. -/
inductive Cycle where
  | idle
  | flushed (batch : List String)
  | posted (batch : List String)
  deriving DecidableEq, Repr

/-- One effect seen by the cycle monitor.  A Flush is accepted only when no
batch is in flight; `postMsg` and the post are accepted only after a Flush,
with exactly the batch that Flush returned, and only once; an Ack is accepted
only for a batch in flight.  Effects of other kinds do not move the monitor;
`none` is a violation. -/
def cycleStep (channelID : String) : Cycle → Effect → Option Cycle
  | Cycle.idle, Effect.qFlush batch => some (Cycle.flushed batch)
  | Cycle.idle, Effect.qAck => none
  | Cycle.idle, Effect.postMsg _ => none
  | Cycle.idle, Effect.chatPostMessage _ _ _ => none
  | Cycle.flushed _, Effect.qFlush _ => none
  | Cycle.flushed _, Effect.qAck => some Cycle.idle
  | Cycle.flushed batch, Effect.postMsg msglines =>
      if msglines = batch then some (Cycle.flushed batch) else none
  | Cycle.flushed batch, Effect.chatPostMessage ch msg _ =>
      if ch = channelID ∧ msg = msgText batch then some (Cycle.posted batch) else none
  | Cycle.posted _, Effect.qFlush _ => none
  | Cycle.posted _, Effect.qAck => some Cycle.idle
  | Cycle.posted _, Effect.postMsg _ => none
  | Cycle.posted _, Effect.chatPostMessage _ _ _ => none
  | c, _ => some c

/-- The cycle monitor run over a trace, oldest effect first. -/
def cycleRun (channelID : String) : Cycle → List Effect → Option Cycle
  | c, [] => some c
  | c, e :: rest =>
      match cycleStep channelID c e with
      | some c1 => cycleRun channelID c1 rest
      | none => none

/-- What the cycle monitor has seen when the delivery loop stands at a
position: nothing in flight before `Flush` and after `Ack`, the flushed batch
before the post, and a flushed or posted batch before `Ack`. -/
def inCycle (channelID : String) (th : Threads) (w : World) : Prop :=
  match th.pc with
  | Pc.atPost msglines => cycleRun channelID Cycle.idle w.trace = some (Cycle.flushed msglines)
  | Pc.atAck => ∃ batch, cycleRun channelID Cycle.idle w.trace = some (Cycle.flushed batch) ∨
      cycleRun channelID Cycle.idle w.trace = some (Cycle.posted batch)
  | _ => cycleRun channelID Cycle.idle w.trace = some Cycle.idle ∧ w.queue.staged = []

/-- The effects of one round of the drain watcher that found the queue
non-empty. -/
def pollRound : List Effect :=
  [Effect.qIsEmpty false, Effect.output "flushing remaining messages to Slack...",
    Effect.sleep 3]

/-- The queue the drain watcher sees at its poll number `i` (from 0), given the
queue at its first poll and what the other goroutines do between polls. -/
def queueAtPoll (q : StreamQ) (others : List (StreamQ → StreamQ)) (i : Nat) : StreamQ :=
  (others.take i).foldl (fun acc f => f acc) q

/-! ## Concrete values for the worked instances -/

/-- A client whose every call succeeds; the name is a private group. -/
def demoApi : Slack :=
  { FindChannelByName := fun _ => none
    FindGroupByName := fun _ => some "G1"
    FindImByName := fun _ => none
    ChatPostMessage := fun _ _ _ => none
    FilesUpload := fun _ _ _ _ _ _ _ => none }

/-- A client that knows no name and refuses every post and upload. -/
def downApi : Slack :=
  { FindChannelByName := fun _ => none
    FindGroupByName := fun _ => none
    FindImByName := fun _ => none
    ChatPostMessage := fun _ _ _ => some "channel_not_found"
    FilesUpload := fun _ _ _ _ _ _ _ => some "channel_not_found" }

/-- A `SlackCat` on the working client. -/
def demoCat : SlackCat :=
  { api := demoApi, channelID := "G1", channelName := "general" }

/-- A `SlackCat` on the failing client. -/
def downCat : SlackCat :=
  { api := downApi, channelID := "G1", channelName := "general" }

/-- Live mode, `exitErr` exits with status 1. -/
def liveGlobals : Globals :=
  { noop := false, errStatus := 1, errText := fun msg err _ => msg ++ ": " ++ err }

/-- Dry-run mode, `exitErr` exits with status 1. -/
def dryGlobals : Globals :=
  { noop := true, errStatus := 1, errText := fun msg err _ => msg ++ ": " ++ err }

/-- A world with three lines queued and nothing done yet. -/
def threeQueued : World :=
  { queue := { live := ["a<b", "c&d", "e"], staged := [] }, trace := [] }

/-- A clock reading. -/
def demoClock : Clock :=
  { unix := 1700000000, elapsed := "0.250" }

/-- A schedule for two input lines in which the second Add falls between
`Flush` and the post of the first batch, and a poll of the watcher falls
between that post and its `Ack`. -/
def demoSchedule : List Turn :=
  [Turn.producer, Turn.delivery, Turn.delivery, Turn.producer] ++
    ([Turn.delivery, Turn.producer, Turn.delivery, Turn.delivery] ++
      ([Turn.delivery, Turn.delivery, Turn.delivery, Turn.delivery] ++ [Turn.producer]))

/-- The world after the first four turns of `demoSchedule`. -/
def demoWorldA : World :=
  { queue := { live := ["b"], staged := ["a"] },
    trace := [Effect.qAdd "a", Effect.qIsEmpty false, Effect.qFlush ["a"], Effect.qAdd "b"] }

/-- The world after eight turns of `demoSchedule`. -/
def demoWorldB : World :=
  { queue := { live := ["b"], staged := [] },
    trace := demoWorldA.trace ++
      [Effect.postMsg ["a"], Effect.chatPostMessage "G1" "a" none,
        Effect.output "posted 1 message lines to general", Effect.qIsEmpty false,
        Effect.output "flushing remaining messages to Slack...", Effect.sleep 3,
        Effect.qAck, Effect.sleep 3] }

/-- The world after twelve turns of `demoSchedule`. -/
def demoWorldC : World :=
  { queue := { live := [], staged := [] },
    trace := demoWorldB.trace ++
      [Effect.qIsEmpty false, Effect.qFlush ["b"], Effect.postMsg ["b"],
        Effect.chatPostMessage "G1" "b" none,
        Effect.output "posted 1 message lines to general", Effect.qAck] }

/-- The world in which `demoSchedule` ends. -/
def demoWorldEnd : World :=
  { queue := { live := [], staged := [] },
    trace := demoWorldC.trace ++ [Effect.qIsEmpty true, Effect.osExit 0] }

/-! ## Escaping -/

theorem replaceScan_single (c : Char) (new s : List Char) :
    replaceScan [c] new 0 s = s.flatMap (fun x => if x = c then new else [x]) := by
  induction s with
  | nil => simp [replaceScan]
  | cons x xs ih =>
    by_cases h : x = c
    · subst h
      simp [replaceScan, List.isPrefixOf, ih]
    · have h2 : ¬ c = x := fun e => h e.symm
      simp [replaceScan, List.isPrefixOf, ih, h, h2]

theorem stringsReplaceAll_single (s old new : String) (c : Char) (hne : old ≠ new)
    (hold : old.data = [c]) :
    stringsReplaceAll s old new =
      ⟨s.data.flatMap (fun x => if x = c then new.data else [x])⟩ := by
  unfold stringsReplaceAll
  rw [if_neg hne, hold, if_neg (by simp), replaceScan_single]

theorem three_passes_char (x : Char) :
    (((if x = '&' then "%26amp%3B".data else [x]).flatMap
      (fun y => if y = '<' then "%26lt%3B".data else [y])).flatMap
      (fun y => if y = '>' then "%26gt%3B".data else [y])) = escapeChar x := by
  unfold escapeChar
  by_cases h1 : x = '&'
  · subst h1; decide
  · by_cases h2 : x = '<'
    · subst h2; decide
    · by_cases h3 : x = '>'
      · subst h3; decide
      · simp [h1, h2, h3]

theorem three_passes (s : String) :
    stringsReplaceAll (stringsReplaceAll (stringsReplaceAll s "&" "%26amp%3B") "<" "%26lt%3B")
      ">" "%26gt%3B" = escapeOnce s := by
  rw [stringsReplaceAll_single _ "&" "%26amp%3B" '&' (by decide) rfl,
    stringsReplaceAll_single _ "<" "%26lt%3B" '<' (by decide) rfl,
    stringsReplaceAll_single _ ">" "%26gt%3B" '>' (by decide) rfl]
  unfold escapeOnce
  simp only [List.flatMap_assoc]
  congr 1
  apply List.flatMap_congr
  intro x _
  rw [← List.flatMap_assoc]
  exact three_passes_char x

theorem msgText_eq_escapeOnce (msglines : List String) :
    msgText msglines = escapeOnce (stringsJoin msglines "\n") :=
  three_passes _

theorem msgText_two_lines :
    msgText ["a<b", "c&d>"] = "a%26lt%3Bb\nc%26amp%3Bd%26gt%3B" := by
  decide

theorem msgText_already_escaped :
    msgText ["%26amp%3B &amp; 100%"] = "%26amp%3B %26amp%3Bamp; 100%" := by
  decide

theorem escapeChar_clean (x c : Char) (h : c ∈ escapeChar x) :
    c ≠ '&' ∧ c ≠ '<' ∧ c ≠ '>' := by
  unfold escapeChar at h
  by_cases h1 : x = '&'
  · rw [if_pos h1] at h
    revert c
    decide
  · by_cases h2 : x = '<'
    · rw [if_neg h1, if_pos h2] at h
      revert c
      decide
    · by_cases h3 : x = '>'
      · rw [if_neg h1, if_neg h2, if_pos h3] at h
        revert c
        decide
      · rw [if_neg h1, if_neg h2, if_neg h3] at h
        have hc : c = x := by simpa using h
        subst hc
        exact ⟨h1, h2, h3⟩

theorem escapeOnce_clean (s : String) (c : Char) (h : c ∈ (escapeOnce s).data) :
    c ≠ '&' ∧ c ≠ '<' ∧ c ≠ '>' := by
  unfold escapeOnce at h
  obtain ⟨x, _, hx⟩ := List.mem_flatMap.mp h
  exact escapeChar_clean x c hx

/-! ## Programs in closed form -/

theorem prog_bind {α β : Type} (m : Prog α) (f : α → Prog β) (w : World) :
    (m >>= f) w = match m w with
      | .ret a w1 => f a w1
      | .halt c w1 => .halt c w1 := rfl

theorem prog_pure {α : Type} (a : α) (w : World) : (pure a : Prog α) w = .ret a w := rfl

theorem failOnError_none (g : Globals) (msg : String) (b : Bool) (w : World) :
    failOnError g none msg b w = .ret () w := rfl

theorem failOnError_some (g : Globals) (e msg : String) (b : Bool) (w : World) :
    failOnError g (some e) msg b w = .halt g.errStatus
      { w with trace := w.trace ++
          [Effect.reportErr (g.errText msg e b), Effect.osExit g.errStatus] } := by
  simp only [failOnError, exitErr, prog_bind, emit, osExit, List.append_assoc]
  rfl

theorem postMsg_ok (sc : SlackCat) (g : Globals) (msglines : List String) (w : World)
    (h : sc.api.ChatPostMessage (w.trace ++ [Effect.postMsg msglines]) sc.channelID
      (msgText msglines) = none) :
    sc.postMsg g msglines w = .ret ()
      { w with trace := w.trace ++ [Effect.postMsg msglines,
          Effect.chatPostMessage sc.channelID (msgText msglines) none,
          Effect.output ("posted " ++ strconvItoa msglines.length ++ " message lines to " ++
            sc.channelName)] } := by
  unfold msgText at *
  simp only [SlackCat.postMsg, prog_bind, emit, chatPostMessage, h,
    failOnError_none, output, List.append_assoc]
  rfl

theorem postMsg_err (sc : SlackCat) (g : Globals) (msglines : List String) (w : World)
    (e : String)
    (h : sc.api.ChatPostMessage (w.trace ++ [Effect.postMsg msglines]) sc.channelID
      (msgText msglines) = some e) :
    sc.postMsg g msglines w = .halt g.errStatus
      { w with trace := w.trace ++ [Effect.postMsg msglines,
          Effect.chatPostMessage sc.channelID (msgText msglines) (some e),
          Effect.reportErr (g.errText "" e true), Effect.osExit g.errStatus] } := by
  unfold msgText at *
  simp only [SlackCat.postMsg, prog_bind, emit, chatPostMessage, h,
    failOnError_some, List.append_assoc]
  rfl

theorem tick_empty (sc : SlackCat) (g : Globals) (w : World) (h : w.queue.IsEmpty = true) :
    sc.processStreamQTick g w = .ret ()
      { w with trace := w.trace ++ [Effect.qIsEmpty true, Effect.sleep 3] } := by
  simp only [SlackCat.processStreamQTick, prog_bind, qIsEmpty, h, timeSleep, emit,
    Bool.not_true, Bool.false_eq_true, if_false, prog_pure, List.append_assoc]
  rfl

theorem tick_noop (sc : SlackCat) (g : Globals) (w : World) (h : w.queue.IsEmpty = false)
    (hn : g.noop = true) :
    sc.processStreamQTick g w = .ret ()
      { queue := w.queue.Flush.2.Ack,
        trace := w.trace ++ [Effect.qIsEmpty false, Effect.qFlush w.queue.Flush.1,
          Effect.output ("skipped posting of " ++ strconvItoa w.queue.Flush.1.length ++
            " message lines to " ++ sc.channelName),
          Effect.qAck, Effect.sleep 3] } := by
  simp only [SlackCat.processStreamQTick, prog_bind, qIsEmpty, h, hn, qFlush, qAck, output,
    timeSleep, emit, Bool.not_false, if_true, List.append_assoc]
  rfl

theorem tick_ok (sc : SlackCat) (g : Globals) (w : World) (h : w.queue.IsEmpty = false)
    (hn : g.noop = false)
    (hp : sc.api.ChatPostMessage
      (w.trace ++ [Effect.qIsEmpty false, Effect.qFlush w.queue.Flush.1,
        Effect.postMsg w.queue.Flush.1]) sc.channelID (msgText w.queue.Flush.1) = none) :
    sc.processStreamQTick g w = .ret ()
      { queue := w.queue.Flush.2.Ack,
        trace := w.trace ++ [Effect.qIsEmpty false, Effect.qFlush w.queue.Flush.1,
          Effect.postMsg w.queue.Flush.1,
          Effect.chatPostMessage sc.channelID (msgText w.queue.Flush.1) none,
          Effect.output ("posted " ++ strconvItoa w.queue.Flush.1.length ++
            " message lines to " ++ sc.channelName),
          Effect.qAck, Effect.sleep 3] } := by
  have hp2 := postMsg_ok sc g w.queue.Flush.1
    { queue := w.queue.Flush.2,
      trace := w.trace ++ [Effect.qIsEmpty false] ++ [Effect.qFlush w.queue.Flush.1] }
    (by simpa only [List.append_assoc, List.singleton_append] using hp)
  simp only [SlackCat.processStreamQTick, prog_bind, qIsEmpty, h, hn, qFlush,
    Bool.not_false, if_true, Bool.false_eq_true, if_false, hp2, qAck,
    timeSleep, emit]
  simp only [List.append_assoc]
  rfl

theorem tick_err (sc : SlackCat) (g : Globals) (w : World) (e : String)
    (h : w.queue.IsEmpty = false) (hn : g.noop = false)
    (hp : sc.api.ChatPostMessage
      (w.trace ++ [Effect.qIsEmpty false, Effect.qFlush w.queue.Flush.1,
        Effect.postMsg w.queue.Flush.1]) sc.channelID (msgText w.queue.Flush.1) = some e) :
    sc.processStreamQTick g w = .halt g.errStatus
      { queue := w.queue.Flush.2,
        trace := w.trace ++ [Effect.qIsEmpty false, Effect.qFlush w.queue.Flush.1,
          Effect.postMsg w.queue.Flush.1,
          Effect.chatPostMessage sc.channelID (msgText w.queue.Flush.1) (some e),
          Effect.reportErr (g.errText "" e true), Effect.osExit g.errStatus] } := by
  have hp2 := postMsg_err sc g w.queue.Flush.1
    { queue := w.queue.Flush.2,
      trace := w.trace ++ [Effect.qIsEmpty false] ++ [Effect.qFlush w.queue.Flush.1] } e
    (by simpa only [List.append_assoc, List.singleton_append] using hp)
  simp only [SlackCat.processStreamQTick, prog_bind, qIsEmpty, h, hn, qFlush,
    Bool.not_false, if_true, Bool.false_eq_true, if_false, hp2]
  simp only [List.append_assoc]
  rfl

/-! ## The text that is posted (C2, C3) and one tick of the delivery loop (C4, C5) -/

theorem since_ret {α : Type} (a : α) (w : World) (q : StreamQ) (l : List Effect) :
    (Step.ret a { queue := q, trace := w.trace ++ l }).since w = l := by
  simp [Step.since, Step.world]

theorem since_halt {α : Type} (c : Nat) (w : World) (q : StreamQ) (l : List Effect) :
    (Step.halt c { queue := q, trace := w.trace ++ l } : Step α).since w = l := by
  simp [Step.since, Step.world]

theorem postMsg_posts (sc : SlackCat) (g : Globals) (msglines : List String) (w : World) :
    postedTexts (sc.postMsg g msglines w).world.trace =
      postedTexts w.trace ++ [msgText msglines] := by
  cases h : sc.api.ChatPostMessage (w.trace ++ [Effect.postMsg msglines]) sc.channelID
      (msgText msglines) with
  | none =>
    rw [postMsg_ok sc g msglines w h]
    simp [Step.world, postedTexts, postedText]
  | some e =>
    rw [postMsg_err sc g msglines w e h]
    simp [Step.world, postedTexts, postedText]

/-- C2: for every batch of lines, `postMsg` hands exactly one text to
`ChatPostMessage`, and that text contains none of the raw characters `&`,
`<` and `>`. -/
theorem postMsg_text_has_no_raw_markup (sc : SlackCat) (g : Globals) (msglines : List String)
    (w : World) :
    ∃ msg : String,
      postedTexts (sc.postMsg g msglines w).world.trace = postedTexts w.trace ++ [msg] ∧
      '&' ∉ msg.data ∧ '<' ∉ msg.data ∧ '>' ∉ msg.data := by
  refine ⟨msgText msglines, postMsg_posts sc g msglines w, ?_, ?_, ?_⟩
  · intro h
    rw [msgText_eq_escapeOnce] at h
    exact (escapeOnce_clean _ _ h).1 rfl
  · intro h
    rw [msgText_eq_escapeOnce] at h
    exact (escapeOnce_clean _ _ h).2.1 rfl
  · intro h
    rw [msgText_eq_escapeOnce] at h
    exact (escapeOnce_clean _ _ h).2.2 rfl

/-- C3: for every batch of lines, the one text `postMsg` posts is the
single-pass, character-by-character substitution (`escapeOnce`) of the lines
joined with one newline; the three sequential `strings.Replace` passes of the
source compute exactly that and never re-escape an earlier pass. -/
theorem postMsg_text_is_single_pass_escape (sc : SlackCat) (g : Globals)
    (msglines : List String) (w : World) :
    postedTexts (sc.postMsg g msglines w).world.trace =
        postedTexts w.trace ++ [escapeOnce (stringsJoin msglines "\n")] ∧
      stringsReplaceAll
        (stringsReplaceAll (stringsReplaceAll (stringsJoin msglines "\n") "&" "%26amp%3B")
          "<" "%26lt%3B")
        ">" "%26gt%3B" = escapeOnce (stringsJoin msglines "\n") := by
  refine ⟨?_, three_passes _⟩
  rw [postMsg_posts, msgText_eq_escapeOnce]

/-- C4: in non-dry-run mode, a `processStreamQ` tick on a non-empty queue makes
exactly one call of `ChatPostMessage`; `Ack` is called if and only if that
call returned no error, and then the tick returns; when it returned an error
the process terminates with the non-zero status of `exitErr`, `Ack` is not
called and no second post is attempted. -/
theorem tick_acks_iff_post_succeeds (sc : SlackCat) (g : Globals) (w : World)
    (hn : g.noop = false) (hq : w.queue.IsEmpty = false) (hs : g.errStatus ≠ 0) :
    ∃ err : Option String,
      ((sc.processStreamQTick g w).since w).filter (fun e => (postedText e).isSome) =
          [Effect.chatPostMessage sc.channelID (msgText w.queue.Flush.1) err] ∧
      (Effect.qAck ∈ (sc.processStreamQTick g w).since w ↔ err = none) ∧
      (err = none → (sc.processStreamQTick g w).status = none) ∧
      (err ≠ none →
        (∃ c, (sc.processStreamQTick g w).status = some c ∧ c ≠ 0) ∧
        Effect.qAck ∉ (sc.processStreamQTick g w).since w ∧
        (postedTexts ((sc.processStreamQTick g w).since w)).length = 1) := by
  cases hp : sc.api.ChatPostMessage
      (w.trace ++ [Effect.qIsEmpty false, Effect.qFlush w.queue.Flush.1,
        Effect.postMsg w.queue.Flush.1]) sc.channelID (msgText w.queue.Flush.1) with
  | none =>
    refine ⟨none, ?_⟩
    rw [tick_ok sc g w hq hn hp, since_ret]
    simp [Step.status, postedText]
  | some e =>
    refine ⟨some e, ?_⟩
    rw [tick_err sc g w e hq hn hp, since_halt]
    simp [Step.status, postedText, postedTexts, hs]

/-- The failing client in live mode, on three queued lines: the hypotheses of
the theorem hold and its conclusion follows; the tick ends the process with
status 1 and makes no call of `Ack`. -/
theorem tick_acks_iff_post_succeeds_witness :
    liveGlobals.noop = false ∧ threeQueued.queue.IsEmpty = false ∧ liveGlobals.errStatus ≠ 0 ∧
      (downCat.processStreamQTick liveGlobals threeQueued).status = some 1 ∧
      ∃ err : Option String,
        ((downCat.processStreamQTick liveGlobals threeQueued).since threeQueued).filter
            (fun e => (postedText e).isSome) =
            [Effect.chatPostMessage downCat.channelID (msgText threeQueued.queue.Flush.1) err] ∧
        (Effect.qAck ∈ (downCat.processStreamQTick liveGlobals threeQueued).since threeQueued ↔
          err = none) ∧
        (err = none → (downCat.processStreamQTick liveGlobals threeQueued).status = none) ∧
        (err ≠ none →
          (∃ c, (downCat.processStreamQTick liveGlobals threeQueued).status = some c ∧ c ≠ 0) ∧
          Effect.qAck ∉ (downCat.processStreamQTick liveGlobals threeQueued).since threeQueued ∧
          (postedTexts
            ((downCat.processStreamQTick liveGlobals threeQueued).since threeQueued)).length =
            1) :=
  ⟨rfl, by decide, by decide, by decide,
    tick_acks_iff_post_succeeds downCat liveGlobals threeQueued rfl (by decide) (by decide)⟩

/-- C5: in dry-run mode, a `processStreamQ` tick on a non-empty queue returns
after exactly these calls: `IsEmpty`, `Flush`, the report "skipped posting of
N message lines to <channel>" with N the length of the flushed batch, `Ack`,
and the sleep; it makes no call of `ChatPostMessage`; and it leaves the queue
as every non-dry-run tick from the same world whose post succeeded. -/
theorem dry_run_tick_skips_post (sc : SlackCat) (g : Globals) (w : World)
    (hn : g.noop = true) (hq : w.queue.IsEmpty = false) :
    sc.processStreamQTick g w = .ret ()
        { queue := w.queue.Flush.2.Ack,
          trace := w.trace ++ [Effect.qIsEmpty false, Effect.qFlush w.queue.Flush.1,
            Effect.output ("skipped posting of " ++ strconvItoa w.queue.Flush.1.length ++
              " message lines to " ++ sc.channelName),
            Effect.qAck, Effect.sleep 3] } ∧
      postedTexts ((sc.processStreamQTick g w).since w) = [] ∧
      ∀ (sc2 : SlackCat) (g2 : Globals), g2.noop = false →
        (∃ ch msg, Effect.chatPostMessage ch msg none ∈ (sc2.processStreamQTick g2 w).since w) →
        (sc2.processStreamQTick g2 w).status = none ∧
        (sc2.processStreamQTick g2 w).world.queue = (sc.processStreamQTick g w).world.queue := by
  refine ⟨tick_noop sc g w hq hn, ?_, ?_⟩
  · rw [tick_noop sc g w hq hn, since_ret]
    simp [postedTexts, postedText]
  · intro sc2 g2 hn2 hpost
    rw [tick_noop sc g w hq hn]
    cases hp : sc2.api.ChatPostMessage
        (w.trace ++ [Effect.qIsEmpty false, Effect.qFlush w.queue.Flush.1,
          Effect.postMsg w.queue.Flush.1]) sc2.channelID (msgText w.queue.Flush.1) with
    | none =>
      rw [tick_ok sc2 g2 w hq hn2 hp]
      exact ⟨rfl, rfl⟩
    | some e =>
      rw [tick_err sc2 g2 w e hq hn2 hp, since_halt] at hpost
      obtain ⟨ch, msg, hmem⟩ := hpost
      simp at hmem

/-- Dry-run mode on three queued lines: the tick reports three skipped lines
and empties the queue, as the live tick does. -/
theorem dry_run_tick_skips_post_witness :
    dryGlobals.noop = true ∧ threeQueued.queue.IsEmpty = false ∧
      demoCat.processStreamQTick dryGlobals threeQueued = .ret ()
        { queue := newStreamQ,
          trace := [Effect.qIsEmpty false, Effect.qFlush ["a<b", "c&d", "e"],
            Effect.output "skipped posting of 3 message lines to general",
            Effect.qAck, Effect.sleep 3] } ∧
      (demoCat.processStreamQTick liveGlobals threeQueued).world.queue = newStreamQ :=
  ⟨rfl, by decide,
    (dry_run_tick_skips_post demoCat dryGlobals threeQueued rfl (by decide)).1, by decide⟩

/-! ## Ordered delivery under every interleaving (C1) -/

theorem isEmpty_iff (q : StreamQ) : q.IsEmpty = true ↔ q.live = [] ∧ q.staged = [] := by
  simp [StreamQ.IsEmpty, List.isEmpty_iff]

theorem handed_append (a b : List Effect) : handed (a ++ b) = handed a ++ handed b := by
  simp [handed, List.filterMap_append]

theorem exitPoll_empty (sc : SlackCat) (w : World) (h : w.queue.IsEmpty = true) :
    sc.exitPoll w = .halt 0
      { w with trace := w.trace ++ [Effect.qIsEmpty true, Effect.osExit 0] } := by
  simp only [SlackCat.exitPoll, prog_bind, qIsEmpty, h, osExit, if_true, List.append_assoc]
  rfl

theorem exitPoll_nonempty (sc : SlackCat) (w : World) (h : w.queue.IsEmpty = false) :
    sc.exitPoll w = .ret () { w with trace := w.trace ++ pollRound } := by
  simp only [SlackCat.exitPoll, prog_bind, qIsEmpty, h, output, timeSleep, emit,
    Bool.false_eq_true, if_false, List.append_assoc, pollRound]
  rfl

theorem step_isEmpty (sc : SlackCat) (g : Globals) (w : World) :
    sc.processStreamQStep g Pc.atIsEmpty w =
      .ret (if w.queue.IsEmpty = true then Pc.atSleep else Pc.atFlush)
        { w with trace := w.trace ++ [Effect.qIsEmpty w.queue.IsEmpty] } := by
  cases h : w.queue.IsEmpty with
  | true =>
    simp only [SlackCat.processStreamQStep, prog_bind, qIsEmpty, h, Bool.not_true,
      Bool.false_eq_true, if_false, if_true, prog_pure]
  | false =>
    simp only [SlackCat.processStreamQStep, prog_bind, qIsEmpty, h, Bool.not_false,
      Bool.false_eq_true, if_false, if_true, prog_pure]

theorem step_flush (sc : SlackCat) (g : Globals) (w : World) :
    sc.processStreamQStep g Pc.atFlush w = .ret (Pc.atPost w.queue.Flush.1)
      { queue := w.queue.Flush.2, trace := w.trace ++ [Effect.qFlush w.queue.Flush.1] } := by
  simp only [SlackCat.processStreamQStep, prog_bind, qFlush, prog_pure]

theorem step_post_noop (sc : SlackCat) (g : Globals) (msglines : List String) (w : World)
    (hn : g.noop = true) :
    sc.processStreamQStep g (Pc.atPost msglines) w = .ret Pc.atAck
      { w with trace := w.trace ++
          [Effect.output ("skipped posting of " ++ strconvItoa msglines.length ++
            " message lines to " ++ sc.channelName)] } := by
  simp only [SlackCat.processStreamQStep, prog_bind, hn, if_true, output, emit, prog_pure]

theorem step_post_ok (sc : SlackCat) (g : Globals) (msglines : List String) (w : World)
    (hn : g.noop = false)
    (hp : sc.api.ChatPostMessage (w.trace ++ [Effect.postMsg msglines]) sc.channelID
      (msgText msglines) = none) :
    sc.processStreamQStep g (Pc.atPost msglines) w = .ret Pc.atAck
      { w with trace := w.trace ++ [Effect.postMsg msglines,
          Effect.chatPostMessage sc.channelID (msgText msglines) none,
          Effect.output ("posted " ++ strconvItoa msglines.length ++ " message lines to " ++
            sc.channelName)] } := by
  simp only [SlackCat.processStreamQStep, prog_bind, hn, Bool.false_eq_true, if_false,
    postMsg_ok sc g msglines w hp, prog_pure]

theorem step_post_err (sc : SlackCat) (g : Globals) (msglines : List String) (w : World)
    (e : String) (hn : g.noop = false)
    (hp : sc.api.ChatPostMessage (w.trace ++ [Effect.postMsg msglines]) sc.channelID
      (msgText msglines) = some e) :
    sc.processStreamQStep g (Pc.atPost msglines) w = .halt g.errStatus
      { w with trace := w.trace ++ [Effect.postMsg msglines,
          Effect.chatPostMessage sc.channelID (msgText msglines) (some e),
          Effect.reportErr (g.errText "" e true), Effect.osExit g.errStatus] } := by
  simp only [SlackCat.processStreamQStep, prog_bind, hn, Bool.false_eq_true, if_false,
    postMsg_err sc g msglines w e hp]

theorem step_ack (sc : SlackCat) (g : Globals) (w : World) :
    sc.processStreamQStep g Pc.atAck w = .ret Pc.atSleep
      { queue := w.queue.Ack, trace := w.trace ++ [Effect.qAck] } := by
  simp only [SlackCat.processStreamQStep, prog_bind, qAck, prog_pure]

theorem step_sleep (sc : SlackCat) (g : Globals) (w : World) :
    sc.processStreamQStep g Pc.atSleep w = .ret Pc.atIsEmpty
      { w with trace := w.trace ++ [Effect.sleep 3] } := by
  simp only [SlackCat.processStreamQStep, prog_bind, timeSleep, emit, prog_pure]

theorem addStep_add (sc : SlackCat) (line : String) (rest : List String) (w : World) :
    sc.addToStreamQStep (line :: rest) w = .ret rest
      { queue := w.queue.Add line, trace := w.trace ++ [Effect.qAdd line] } := rfl

theorem addStep_poll_empty (sc : SlackCat) (w : World) (h : w.queue.IsEmpty = true) :
    sc.addToStreamQStep [] w = .halt 0
      { w with trace := w.trace ++ [Effect.qIsEmpty true, Effect.osExit 0] } := by
  simp only [SlackCat.addToStreamQStep, prog_bind, exitPoll_empty sc w h]

theorem addStep_poll_nonempty (sc : SlackCat) (w : World) (h : w.queue.IsEmpty = false) :
    sc.addToStreamQStep [] w = .ret [] { w with trace := w.trace ++ pollRound } := by
  simp only [SlackCat.addToStreamQStep, prog_bind, exitPoll_nonempty sc w h, prog_pure]

theorem turn_producer_ret (sc : SlackCat) (g : Globals) (th : Threads) (rest : List String)
    (w w1 : World) (h : sc.addToStreamQStep th.lines w = .ret rest w1) :
    sc.turn g Turn.producer th w = .ret { th with lines := rest } w1 := by
  simp only [SlackCat.turn, prog_bind, h, prog_pure]

theorem turn_producer_halt (sc : SlackCat) (g : Globals) (th : Threads) (c : Nat)
    (w w1 : World) (h : sc.addToStreamQStep th.lines w = .halt c w1) :
    sc.turn g Turn.producer th w = .halt c w1 := by
  simp only [SlackCat.turn, prog_bind, h]

theorem turn_delivery_ret (sc : SlackCat) (g : Globals) (th : Threads) (next : Pc)
    (w w1 : World) (h : sc.processStreamQStep g th.pc w = .ret next w1) :
    sc.turn g Turn.delivery th w = .ret { th with pc := next } w1 := by
  simp only [SlackCat.turn, prog_bind, h, prog_pure]

theorem turn_delivery_halt (sc : SlackCat) (g : Globals) (th : Threads) (c : Nat)
    (w w1 : World) (h : sc.processStreamQStep g th.pc w = .halt c w1) :
    sc.turn g Turn.delivery th w = .halt c w1 := by
  simp only [SlackCat.turn, prog_bind, h]

theorem run_nil (sc : SlackCat) (g : Globals) (th : Threads) (w : World) :
    sc.run g [] th w = .ret th w := rfl

theorem run_cons_ret (sc : SlackCat) (g : Globals) (t : Turn) (rest : List Turn)
    (th th1 : Threads) (w w1 : World) (h : sc.turn g t th w = .ret th1 w1) :
    sc.run g (t :: rest) th w = sc.run g rest th1 w1 := by
  simp only [SlackCat.run, prog_bind, h]

theorem run_cons_halt (sc : SlackCat) (g : Globals) (t : Turn) (rest : List Turn)
    (th : Threads) (w w1 : World) (c : Nat) (h : sc.turn g t th w = .halt c w1) :
    sc.run g (t :: rest) th w = .halt c w1 := by
  simp only [SlackCat.run, prog_bind, h]

theorem run_append_ret (sc : SlackCat) (g : Globals) (s1 s2 : List Turn) :
    ∀ (th th1 : Threads) (w w1 : World), sc.run g s1 th w = .ret th1 w1 →
      sc.run g (s1 ++ s2) th w = sc.run g s2 th1 w1 := by
  induction s1 with
  | nil =>
    intro th th1 w w1 h
    rw [run_nil] at h
    injection h with h1 h2
    subst h1 h2
    rfl
  | cons t rest ih =>
    intro th th1 w w1 h
    cases ht : sc.turn g t th w with
    | ret th2 w2 =>
      rw [run_cons_ret sc g t rest th th2 w w2 ht] at h
      rw [List.cons_append, run_cons_ret sc g t (rest ++ s2) th th2 w w2 ht]
      exact ih th2 th1 w2 w1 h
    | halt c w2 =>
      rw [run_cons_halt sc g t rest th w w2 c ht] at h
      cases h

theorem finishTick_done (sc : SlackCat) (g : Globals) (fuel : Nat) (pc : Pc) (w w1 : World)
    (h : sc.processStreamQStep g pc w = .ret Pc.atIsEmpty w1) :
    sc.finishTick g (fuel + 1) pc w = .ret () w1 := by
  simp only [SlackCat.finishTick, prog_bind, h, if_true, prog_pure]

theorem finishTick_more (sc : SlackCat) (g : Globals) (fuel : Nat) (pc next : Pc)
    (w w1 : World) (h : sc.processStreamQStep g pc w = .ret next w1)
    (hne : next ≠ Pc.atIsEmpty) :
    sc.finishTick g (fuel + 1) pc w = sc.finishTick g fuel next w1 := by
  simp only [SlackCat.finishTick, prog_bind, h, hne, if_false]

theorem finishTick_halt (sc : SlackCat) (g : Globals) (fuel : Nat) (pc : Pc) (c : Nat)
    (w w1 : World) (h : sc.processStreamQStep g pc w = .halt c w1) :
    sc.finishTick g (fuel + 1) pc w = .halt c w1 := by
  simp only [SlackCat.finishTick, prog_bind, h]

/-- The statements of `processStreamQStep`, run one after the other with
nothing in between, are one activation of `processStreamQ`. -/
theorem tick_eq_steps (sc : SlackCat) (g : Globals) (w : World) :
    sc.processStreamQTick g w = sc.finishTick g 5 Pc.atIsEmpty w := by
  cases hq : w.queue.IsEmpty with
  | true =>
    have h1 := step_isEmpty sc g w
    rw [hq, if_pos rfl] at h1
    rw [tick_empty sc g w hq, finishTick_more sc g 4 _ _ w _ h1 (by decide),
      finishTick_done sc g 3 _ _ _ (step_sleep sc g _)]
    simp only [List.append_assoc]
    rfl
  | false =>
    have h1 := step_isEmpty sc g w
    rw [hq, if_neg (by decide)] at h1
    rw [finishTick_more sc g 4 _ _ w _ h1 (by decide),
      finishTick_more sc g 3 _ _ _ _ (step_flush sc g _) (by simp)]
    cases hn : g.noop with
    | true =>
      rw [tick_noop sc g w hq hn,
        finishTick_more sc g 2 _ _ _ _ (step_post_noop sc g _ _ hn) (by decide),
        finishTick_more sc g 1 _ _ _ _ (step_ack sc g _) (by decide),
        finishTick_done sc g 0 _ _ _ (step_sleep sc g _)]
      simp only [List.append_assoc]
      rfl
    | false =>
      cases hp : sc.api.ChatPostMessage
          (w.trace ++ [Effect.qIsEmpty false, Effect.qFlush w.queue.Flush.1,
            Effect.postMsg w.queue.Flush.1]) sc.channelID (msgText w.queue.Flush.1) with
      | none =>
        rw [tick_ok sc g w hq hn hp,
          finishTick_more sc g 2 _ _ _ _
            (step_post_ok sc g _ _ hn
              (by simpa only [List.append_assoc, List.singleton_append] using hp))
            (by decide),
          finishTick_more sc g 1 _ _ _ _ (step_ack sc g _) (by decide),
          finishTick_done sc g 0 _ _ _ (step_sleep sc g _)]
        simp only [List.append_assoc]
        rfl
      | some e =>
        rw [tick_err sc g w e hq hn hp,
          finishTick_halt sc g 2 _ _ _ _
            (step_post_err sc g _ _ e hn
              (by simpa only [List.append_assoc, List.singleton_append] using hp))]
        simp only [List.append_assoc]
        rfl

theorem accounted_empty (input : List String) (th : Threads) (w : World)
    (h : accounted input th w) (hl : th.lines = []) (hq : w.queue.IsEmpty = true) :
    (handed w.trace).flatten = input := by
  obtain ⟨h1, h2⟩ := (isEmpty_iff _).mp hq
  unfold accounted at h
  cases hpc : th.pc <;> rw [hpc] at h <;> simp only at h
  · simpa [h1, h2, hl] using h
  · simpa [h1, h2, hl] using h
  · simpa [h1, h2, hl] using h.2
  · simpa [h1, h2, hl] using h
  · simpa [h1, h2, hl] using h

theorem accounted_handed (input : List String) (th : Threads) (w : World)
    (h : accounted input th w) : (handed w.trace).flatten <+: input := by
  unfold accounted at h
  cases hpc : th.pc <;> rw [hpc] at h <;> simp only at h
  · exact ⟨_, h⟩
  · exact ⟨_, h⟩
  · exact ⟨_, h.2⟩
  · exact ⟨_, h⟩
  · exact ⟨_, h⟩

theorem turn_accounted (sc : SlackCat) (g : Globals) (hn : g.noop = false)
    (hok : ∀ h ch msg, sc.api.ChatPostMessage h ch msg = none) (input : List String)
    (t : Turn) (th : Threads) (w : World) (hacc : accounted input th w) :
    match sc.turn g t th w with
    | .ret th1 w1 => accounted input th1 w1
    | .halt c w1 => c = 0 ∧ (handed w1.trace).flatten = input := by
  obtain ⟨lines, pc⟩ := th
  cases t with
  | producer =>
    cases lines with
    | cons line rest =>
      rw [turn_producer_ret sc g _ rest w _ (addStep_add sc line rest w)]
      simp only
      unfold accounted at hacc ⊢
      cases pc <;> simp only at hacc ⊢ <;>
        simp [handed_append, handed, handedBatch, StreamQ.Add] at hacc ⊢ <;>
        exact hacc
    | nil =>
      cases hq : w.queue.IsEmpty with
      | true =>
        rw [turn_producer_halt sc g _ 0 w _ (addStep_poll_empty sc w hq)]
        refine ⟨rfl, ?_⟩
        have h := accounted_empty input _ w hacc rfl hq
        simpa [handed_append, handed, handedBatch] using h
      | false =>
        rw [turn_producer_ret sc g _ [] w _ (addStep_poll_nonempty sc w hq)]
        simp only
        unfold accounted at hacc ⊢
        cases pc <;> simp only at hacc ⊢ <;>
          simp [handed_append, handed, handedBatch, pollRound] at hacc ⊢ <;>
          exact hacc
  | delivery =>
    cases pc with
    | atIsEmpty =>
      rw [turn_delivery_ret sc g _ _ w _ (step_isEmpty sc g w)]
      simp only
      unfold accounted at hacc ⊢
      simp only at hacc
      cases hq : w.queue.IsEmpty <;>
        simpa [handed_append, handed, handedBatch] using hacc
    | atFlush =>
      rw [turn_delivery_ret sc g _ _ w _ (step_flush sc g w)]
      simp only
      unfold accounted at hacc ⊢
      simp only at hacc ⊢
      simpa [handed_append, handed, handedBatch, StreamQ.Flush] using hacc
    | atPost msglines =>
      rw [turn_delivery_ret sc g _ _ w _ (step_post_ok sc g msglines w hn (hok _ _ _))]
      simp only
      unfold accounted at hacc ⊢
      simp only at hacc ⊢
      obtain ⟨hb, hacc⟩ := hacc
      subst hb
      simpa [handed_append, handed, handedBatch] using hacc
    | atAck =>
      rw [turn_delivery_ret sc g _ _ w _ (step_ack sc g w)]
      simp only
      unfold accounted at hacc ⊢
      simp only at hacc ⊢
      simpa [handed_append, handed, handedBatch, StreamQ.Ack] using hacc
    | atSleep =>
      rw [turn_delivery_ret sc g _ _ w _ (step_sleep sc g w)]
      simp only
      unfold accounted at hacc ⊢
      simp only at hacc ⊢
      simpa [handed_append, handed, handedBatch] using hacc

theorem run_accounted (sc : SlackCat) (g : Globals) (hn : g.noop = false)
    (hok : ∀ h ch msg, sc.api.ChatPostMessage h ch msg = none) (input : List String)
    (sched : List Turn) :
    ∀ (th : Threads) (w : World), accounted input th w →
      match sc.run g sched th w with
      | .ret th1 w1 => accounted input th1 w1
      | .halt c w1 => c = 0 ∧ (handed w1.trace).flatten = input := by
  induction sched with
  | nil =>
    intro th w hacc
    rw [run_nil]
    exact hacc
  | cons t rest ih =>
    intro th w hacc
    have ht := turn_accounted sc g hn hok input t th w hacc
    cases hr : sc.turn g t th w with
    | ret th1 w1 =>
      rw [run_cons_ret sc g t rest th th1 w w1 hr]
      rw [hr] at ht
      exact ih th1 w1 ht
    | halt c w1 =>
      rw [run_cons_halt sc g t rest th w w1 c hr]
      rw [hr] at ht
      exact ht

/-- C1: in non-dry-run mode with every post succeeding, for every input
sequence of lines and every interleaving of the steps of `addToStreamQ` (its
Adds, then the polls of its `exit`) with the single statements of
`processStreamQ` (so an Add or a poll may fall between `IsEmpty`, `Flush`, the
post and `Ack`), from process start: the concatenation of the batches handed
to `postMsg`, in order, is a prefix of the input; it is the whole input at
every state after the last Add in which the queue reports empty, wherever the
delivery loop stands; and the process ends only with status 0 and only after
the whole input was handed over. -/
theorem delivery_preserves_order (sc : SlackCat) (g : Globals) (hn : g.noop = false)
    (hok : ∀ h ch msg, sc.api.ChatPostMessage h ch msg = none) (input : List String)
    (sched : List Turn) :
    (handed (sc.run g sched { lines := input, pc := Pc.atIsEmpty }
        World.init).world.trace).flatten <+: input ∧
      (∀ th w, sc.run g sched { lines := input, pc := Pc.atIsEmpty } World.init = .ret th w →
        th.lines = [] → w.queue.IsEmpty = true → (handed w.trace).flatten = input) ∧
      (∀ c w, sc.run g sched { lines := input, pc := Pc.atIsEmpty } World.init = .halt c w →
        c = 0 ∧ (handed w.trace).flatten = input) := by
  have h0 : accounted input { lines := input, pc := Pc.atIsEmpty } World.init := by
    simp [accounted, World.init, newStreamQ, handed]
  have h := run_accounted sc g hn hok input sched _ _ h0
  cases hr : sc.run g sched { lines := input, pc := Pc.atIsEmpty } World.init with
  | ret th w =>
    rw [hr] at h
    simp only at h
    refine ⟨accounted_handed input th w h, ?_, ?_⟩
    · intro th1 w1 heq hrest hq
      injection heq with e1 e2
      subst e1 e2
      exact accounted_empty input th w h hrest hq
    · intro c w1 heq
      cases heq
  | halt c w =>
    rw [hr] at h
    simp only at h
    refine ⟨?_, ?_, ?_⟩
    · simp only [Step.world]
      rw [h.2]
    · intro th1 w1 heq
      cases heq
    · intro c1 w1 heq
      injection heq with e1 e2
      subst e1 e2
      exact h

theorem demoSchedule_runs :
    demoCat.run liveGlobals demoSchedule { lines := ["a", "b"], pc := Pc.atIsEmpty }
      World.init = .halt 0 demoWorldEnd := by
  have hA : demoCat.run liveGlobals [Turn.producer, Turn.delivery, Turn.delivery, Turn.producer]
      { lines := ["a", "b"], pc := Pc.atIsEmpty } World.init =
      .ret { lines := [], pc := Pc.atPost ["a"] } demoWorldA := by decide
  have hB : demoCat.run liveGlobals [Turn.delivery, Turn.producer, Turn.delivery, Turn.delivery]
      { lines := [], pc := Pc.atPost ["a"] } demoWorldA =
      .ret { lines := [], pc := Pc.atIsEmpty } demoWorldB := by decide
  have hC : demoCat.run liveGlobals [Turn.delivery, Turn.delivery, Turn.delivery, Turn.delivery]
      { lines := [], pc := Pc.atIsEmpty } demoWorldB =
      .ret { lines := [], pc := Pc.atSleep } demoWorldC := by decide
  have hD : demoCat.run liveGlobals [Turn.producer]
      { lines := [], pc := Pc.atSleep } demoWorldC = .halt 0 demoWorldEnd := by decide
  unfold demoSchedule
  rw [run_append_ret _ _ _ _ _ _ _ _ hA, run_append_ret _ _ _ _ _ _ _ _ hB,
    run_append_ret _ _ _ _ _ _ _ _ hC, hD]

/-- Two lines delivered in two batches, the second line added between the
`Flush` and the post of the first batch and the watcher polling between that
post and its `Ack`: the process ends with status 0 after both batches were
handed to `postMsg`, and the batches concatenated are the input. -/
theorem delivery_preserves_order_witness :
    liveGlobals.noop = false ∧ (∀ h ch msg, demoCat.api.ChatPostMessage h ch msg = none) ∧
      demoCat.run liveGlobals demoSchedule { lines := ["a", "b"], pc := Pc.atIsEmpty }
        World.init = .halt 0 demoWorldEnd ∧
      handed demoWorldEnd.trace = [["a"], ["b"]] ∧
      (0 = 0 ∧ (handed demoWorldEnd.trace).flatten = ["a", "b"]) :=
  ⟨rfl, fun _ _ _ => rfl, demoSchedule_runs, by decide,
    (delivery_preserves_order demoCat liveGlobals rfl (fun _ _ _ => rfl) ["a", "b"]
      demoSchedule).2.2 0 demoWorldEnd demoSchedule_runs⟩

/-! ## One flush-and-post cycle in flight (C10) -/

theorem cycleRun_append (ch : String) (a b : List Effect) :
    ∀ c : Cycle, cycleRun ch c (a ++ b) = (cycleRun ch c a).bind (fun c1 => cycleRun ch c1 b) := by
  induction a with
  | nil => intro c; simp [cycleRun]
  | cons e rest ih =>
    intro c
    simp only [List.cons_append, cycleRun]
    cases cycleStep ch c e with
    | none => simp
    | some c1 => simpa using ih c1

theorem cycle_from (ch : String) (t l : List Effect) (c : Cycle)
    (h : cycleRun ch Cycle.idle t = some c) :
    cycleRun ch Cycle.idle (t ++ l) = cycleRun ch c l := by
  rw [cycleRun_append, h]
  rfl

theorem cycle_skips_add (ch : String) (c : Cycle) (line : String) :
    cycleRun ch c [Effect.qAdd line] = some c := by
  cases c <;> rfl

theorem cycle_skips_poll (ch : String) (c : Cycle) (r : Bool) :
    cycleRun ch c [Effect.qIsEmpty r] = some c := by
  cases c <;> rfl

theorem cycle_skips_round (ch : String) (c : Cycle) : cycleRun ch c pollRound = some c := by
  cases c <;> rfl

theorem cycle_skips_exit (ch : String) (c : Cycle) (status : Nat) :
    cycleRun ch c [Effect.qIsEmpty true, Effect.osExit status] = some c := by
  cases c <;> rfl

theorem cycle_skips_sleep (ch : String) (c : Cycle) (n : Nat) :
    cycleRun ch c [Effect.sleep n] = some c := by
  cases c <;> rfl

theorem inCycle_some (ch : String) (th : Threads) (w : World) (h : inCycle ch th w) :
    ∃ c, cycleRun ch Cycle.idle w.trace = some c := by
  unfold inCycle at h
  cases hpc : th.pc <;> rw [hpc] at h <;> simp only at h
  · exact ⟨_, h.1⟩
  · exact ⟨_, h.1⟩
  · exact ⟨_, h⟩
  · obtain ⟨b, hb | hb⟩ := h
    · exact ⟨_, hb⟩
    · exact ⟨_, hb⟩
  · exact ⟨_, h.1⟩

theorem inCycle_quiet (ch : String) (th th1 : Threads) (w w1 : World) (l : List Effect)
    (h : inCycle ch th w) (hpc : th1.pc = th.pc) (hst : w1.queue.staged = w.queue.staged)
    (htr : w1.trace = w.trace ++ l) (hl : ∀ c, cycleRun ch c l = some c) :
    inCycle ch th1 w1 := by
  unfold inCycle at h ⊢
  rw [hpc, htr, hst]
  cases hp : th.pc <;> rw [hp] at h <;> simp only at h ⊢
  · exact ⟨by rw [cycle_from ch _ _ _ h.1, hl], h.2⟩
  · exact ⟨by rw [cycle_from ch _ _ _ h.1, hl], h.2⟩
  · rw [cycle_from ch _ _ _ h, hl]
  · obtain ⟨b, hb | hb⟩ := h
    · exact ⟨b, Or.inl (by rw [cycle_from ch _ _ _ hb, hl])⟩
    · exact ⟨b, Or.inr (by rw [cycle_from ch _ _ _ hb, hl])⟩
  · exact ⟨by rw [cycle_from ch _ _ _ h.1, hl], h.2⟩

theorem turn_inCycle (sc : SlackCat) (g : Globals) (t : Turn) (th : Threads) (w : World)
    (hc : inCycle sc.channelID th w) :
    match sc.turn g t th w with
    | .ret th1 w1 => inCycle sc.channelID th1 w1
    | .halt _ w1 => (cycleRun sc.channelID Cycle.idle w1.trace).isSome = true := by
  obtain ⟨lines, pc⟩ := th
  cases t with
  | producer =>
    cases lines with
    | cons line rest =>
      rw [turn_producer_ret sc g _ rest w _ (addStep_add sc line rest w)]
      exact inCycle_quiet _ _ _ w _ [Effect.qAdd line] hc rfl rfl rfl
        (fun c => cycle_skips_add _ c line)
    | nil =>
      cases hq : w.queue.IsEmpty with
      | true =>
        rw [turn_producer_halt sc g _ 0 w _ (addStep_poll_empty sc w hq)]
        obtain ⟨c, hcw⟩ := inCycle_some _ _ _ hc
        simp only
        rw [cycle_from _ _ _ c hcw, cycle_skips_exit]
        rfl
      | false =>
        rw [turn_producer_ret sc g _ [] w _ (addStep_poll_nonempty sc w hq)]
        exact inCycle_quiet _ _ _ w _ pollRound hc rfl rfl rfl
          (fun c => cycle_skips_round _ c)
  | delivery =>
    cases pc with
    | atIsEmpty =>
      rw [turn_delivery_ret sc g _ _ w _ (step_isEmpty sc g w)]
      unfold inCycle at hc ⊢
      simp only at hc ⊢
      have hrun : cycleRun sc.channelID Cycle.idle (w.trace ++ [Effect.qIsEmpty w.queue.IsEmpty]) =
          some Cycle.idle := by
        rw [cycle_from _ _ _ _ hc.1, cycle_skips_poll]
      cases hq : w.queue.IsEmpty <;> simp only [hq] at hrun ⊢ <;> exact ⟨hrun, hc.2⟩
    | atFlush =>
      rw [turn_delivery_ret sc g _ _ w _ (step_flush sc g w)]
      unfold inCycle at hc ⊢
      simp only at hc ⊢
      rw [cycle_from _ _ _ _ hc.1]
      rfl
    | atPost msglines =>
      unfold inCycle at hc
      simp only at hc
      cases hn : g.noop with
      | true =>
        rw [turn_delivery_ret sc g _ _ w _ (step_post_noop sc g msglines w hn)]
        unfold inCycle
        simp only
        refine ⟨msglines, Or.inl ?_⟩
        rw [cycle_from _ _ _ _ hc]
        rfl
      | false =>
        cases hp : sc.api.ChatPostMessage (w.trace ++ [Effect.postMsg msglines]) sc.channelID
            (msgText msglines) with
        | none =>
          rw [turn_delivery_ret sc g _ _ w _ (step_post_ok sc g msglines w hn hp)]
          unfold inCycle
          simp only
          refine ⟨msglines, Or.inr ?_⟩
          rw [cycle_from _ _ _ _ hc]
          simp [cycleRun, cycleStep]
        | some e =>
          rw [turn_delivery_halt sc g _ _ w _ (step_post_err sc g msglines w e hn hp)]
          simp only
          rw [cycle_from _ _ _ _ hc]
          simp [cycleRun, cycleStep]
    | atAck =>
      rw [turn_delivery_ret sc g _ _ w _ (step_ack sc g w)]
      unfold inCycle at hc ⊢
      simp only at hc ⊢
      obtain ⟨b, hb | hb⟩ := hc
      · rw [cycle_from _ _ _ _ hb]
        exact ⟨rfl, rfl⟩
      · rw [cycle_from _ _ _ _ hb]
        exact ⟨rfl, rfl⟩
    | atSleep =>
      rw [turn_delivery_ret sc g _ _ w _ (step_sleep sc g w)]
      unfold inCycle at hc ⊢
      simp only at hc ⊢
      rw [cycle_from _ _ _ _ hc.1, cycle_skips_sleep]
      exact ⟨rfl, hc.2⟩

theorem run_inCycle (sc : SlackCat) (g : Globals) (sched : List Turn) :
    ∀ (th : Threads) (w : World), inCycle sc.channelID th w →
      match sc.run g sched th w with
      | .ret th1 w1 => inCycle sc.channelID th1 w1
      | .halt _ w1 => (cycleRun sc.channelID Cycle.idle w1.trace).isSome = true := by
  induction sched with
  | nil =>
    intro th w hc
    rw [run_nil]
    exact hc
  | cons t rest ih =>
    intro th w hc
    have ht := turn_inCycle sc g t th w hc
    cases hr : sc.turn g t th w with
    | ret th1 w1 =>
      rw [run_cons_ret sc g t rest th th1 w w1 hr]
      rw [hr] at ht
      exact ih th1 w1 ht
    | halt c w1 =>
      rw [run_cons_halt sc g t rest th w w1 c hr]
      rw [hr] at ht
      exact ht

theorem tick_cycle (sc : SlackCat) (g : Globals) (w : World)
    (hc : cycleRun sc.channelID Cycle.idle w.trace = some Cycle.idle) :
    match sc.processStreamQTick g w with
    | .ret _ w1 => cycleRun sc.channelID Cycle.idle w1.trace = some Cycle.idle
    | .halt _ w1 => (cycleRun sc.channelID Cycle.idle w1.trace).isSome = true := by
  cases hq : w.queue.IsEmpty with
  | true =>
    rw [tick_empty sc g w hq]
    simp only
    rw [cycle_from _ _ _ _ hc]
    rfl
  | false =>
    cases hn : g.noop with
    | true =>
      rw [tick_noop sc g w hq hn]
      simp only
      rw [cycle_from _ _ _ _ hc]
      rfl
    | false =>
      cases hp : sc.api.ChatPostMessage
          (w.trace ++ [Effect.qIsEmpty false, Effect.qFlush w.queue.Flush.1,
            Effect.postMsg w.queue.Flush.1]) sc.channelID (msgText w.queue.Flush.1) with
      | none =>
        rw [tick_ok sc g w hq hn hp]
        simp only
        rw [cycle_from _ _ _ _ hc]
        simp [cycleRun, cycleStep]
      | some e =>
        rw [tick_err sc g w e hq hn hp]
        simp only
        rw [cycle_from _ _ _ _ hc]
        simp [cycleRun, cycleStep]

theorem processStreamQ_cycle (sc : SlackCat) (g : Globals) (ticks : Nat) :
    ∀ w : World, cycleRun sc.channelID Cycle.idle w.trace = some Cycle.idle →
      (cycleRun sc.channelID Cycle.idle (sc.processStreamQ g ticks w).world.trace).isSome =
        true := by
  induction ticks with
  | zero =>
    intro w hc
    simp [SlackCat.processStreamQ, prog_pure, Step.world, hc]
  | succ n ih =>
    intro w hc
    have ht := tick_cycle sc g w hc
    cases hr : sc.processStreamQTick g w with
    | ret u w1 =>
      rw [hr] at ht
      have hstep : sc.processStreamQ g (n + 1) w = sc.processStreamQ g n w1 := by
        simp only [SlackCat.processStreamQ, prog_bind, hr]
      rw [hstep]
      exact ih w1 ht
    | halt c w1 =>
      rw [hr] at ht
      have hstep : sc.processStreamQ g (n + 1) w = .halt c w1 := by
        simp only [SlackCat.processStreamQ, prog_bind, hr]
      rw [hstep]
      exact ht

/-- C10: at most one flush-and-post cycle is in flight.  For every queue
content at the start, every input and every interleaving of the steps of
`addToStreamQ` with the single statements of `processStreamQ` (and for every
number of activations of `processStreamQ` run alone), the trace is accepted by
the cycle monitor: calls of `Flush` and `Ack` strictly alternate starting with
`Flush`, `postMsg` and the post occur only after a `Flush` and before its
`Ack`, at most once, and carry exactly the batch that `Flush` returned.
Whenever the delivery loop stands before `IsEmpty`, before `Flush` or before
its sleep, the monitor is at idle (every `Flush` so far has its `Ack`) and the
staging area is empty, so `Flush` is never called on a staged, unacknowledged
batch; the only trace that ends inside a cycle is that of a process that
`os.Exit` ended there.  An activation that finds the queue empty only polls
and sleeps: no `Flush`, no post, no `Ack`. -/
theorem one_cycle_in_flight (sc : SlackCat) (g : Globals) (pending input : List String)
    (sched : List Turn) :
    (cycleRun sc.channelID Cycle.idle
        (sc.run g sched { lines := input, pc := Pc.atIsEmpty }
          { queue := { live := pending, staged := [] }, trace := [] }).world.trace).isSome =
        true ∧
      (∀ th w,
        sc.run g sched { lines := input, pc := Pc.atIsEmpty }
          { queue := { live := pending, staged := [] }, trace := [] } = .ret th w →
        (th.pc = Pc.atIsEmpty ∨ th.pc = Pc.atFlush ∨ th.pc = Pc.atSleep) →
        cycleRun sc.channelID Cycle.idle w.trace = some Cycle.idle ∧ w.queue.staged = []) ∧
      (∀ ticks : Nat,
        (cycleRun sc.channelID Cycle.idle
          (sc.processStreamQ g ticks
            { queue := { live := pending, staged := [] }, trace := [] }).world.trace).isSome =
          true) ∧
      (∀ w : World, w.queue.IsEmpty = true →
        sc.processStreamQTick g w = .ret ()
          { w with trace := w.trace ++ [Effect.qIsEmpty true, Effect.sleep 3] }) := by
  have h0 : inCycle sc.channelID { lines := input, pc := Pc.atIsEmpty }
      { queue := { live := pending, staged := [] }, trace := [] } := ⟨rfl, rfl⟩
  have h := run_inCycle sc g sched _ _ h0
  refine ⟨?_, ?_, fun ticks => processStreamQ_cycle sc g ticks _ rfl,
    fun w hq => tick_empty sc g w hq⟩
  · cases hr : sc.run g sched { lines := input, pc := Pc.atIsEmpty }
        { queue := { live := pending, staged := [] }, trace := [] } with
    | ret th w =>
      rw [hr] at h
      obtain ⟨c, hcw⟩ := inCycle_some _ _ _ h
      simp [Step.world, hcw]
    | halt c w =>
      rw [hr] at h
      exact h
  · intro th w hr hpc
    rw [hr] at h
    simp only at h
    unfold inCycle at h
    rcases hpc with hp | hp | hp <;> rw [hp] at h <;> exact h

/-! ## The signal handler (C6) and the drain watcher (C7) -/

theorem trapSignal_first (sc : SlackCat) (g : Globals) (sig : String) (w : World) :
    sc.trapSignal g 0 sig w = .ret 1
      { w with trace := w.trace ++ [Effect.output ("got signal: " ++ sig),
          Effect.output "press ctrl+c again to exit immediately", Effect.goExit] } := by
  simp only [SlackCat.trapSignal, prog_bind, output, emit, gt_iff_lt, Nat.lt_irrefl, if_false,
    prog_pure, List.append_assoc]
  rfl

theorem trapSignal_again (sc : SlackCat) (g : Globals) (sigcount : Nat) (sig : String)
    (w : World) (h : 0 < sigcount) :
    sc.trapSignal g sigcount sig w = .halt g.errStatus
      { w with trace := w.trace ++ [Effect.reportErr "aborted", Effect.osExit g.errStatus] } := by
  simp only [SlackCat.trapSignal, prog_bind, exitErr, emit, osExit, gt_iff_lt, h, if_true,
    List.append_assoc]
  rfl

theorem trapSignal_counts (sc : SlackCat) (g : Globals) (sigcount : Nat) (sig : String)
    (w w1 : World) (n : Nat) (h : sc.trapSignal g sigcount sig w = .ret n w1) :
    n = sigcount + 1 := by
  cases sigcount with
  | zero =>
    rw [trapSignal_first] at h
    injection h with h1 _
    exact h1.symm
  | succ k =>
    rw [trapSignal_again sc g (k + 1) sig w (Nat.succ_pos k)] at h
    cases h

theorem trapLoop_cons_ret (sc : SlackCat) (g : Globals) (sigcount n : Nat) (sig : String)
    (rest : List String) (w w1 : World) (h : sc.trapSignal g sigcount sig w = .ret n w1) :
    sc.trapLoop g sigcount (sig :: rest) w = sc.trapLoop g n rest w1 := by
  simp only [SlackCat.trapLoop, prog_bind, h]

theorem trapLoop_cons_halt (sc : SlackCat) (g : Globals) (sigcount c : Nat) (sig : String)
    (rest : List String) (w w1 : World) (h : sc.trapSignal g sigcount sig w = .halt c w1) :
    sc.trapLoop g sigcount (sig :: rest) w = .halt c w1 := by
  simp only [SlackCat.trapLoop, prog_bind, h]

theorem trapLoop_counts (sc : SlackCat) (g : Globals) (signals : List String) :
    ∀ (sigcount n : Nat) (w w1 : World),
      sc.trapLoop g sigcount signals w = .ret n w1 → sigcount ≤ n := by
  induction signals with
  | nil =>
    intro sigcount n w w1 h
    injection h with h1 _
    exact Nat.le_of_eq h1
  | cons sig rest ih =>
    intro sigcount n w w1 h
    cases hs : sc.trapSignal g sigcount sig w with
    | ret m w2 =>
      rw [trapLoop_cons_ret sc g sigcount m sig rest w w2 hs] at h
      have h1 := trapSignal_counts sc g sigcount sig w w2 m hs
      have h2 := ih m n w2 w1 h
      omega
    | halt c w2 =>
      rw [trapLoop_cons_halt sc g sigcount c sig rest w w2 hs] at h
      cases h

/-- C6: for every queue content and every sequence of signals delivered to
`trap`: with no signal the handler only waits; the first signal does not
terminate the process in the handler, it reports the signal and starts the
drain watcher (`go sc.exit()`), leaving the queue as it is; a second signal
terminates the process at once with the error "aborted" and the non-zero
status of `exitErr`, whatever the queue holds and whatever signals follow; and
`sigcount` only ever increases, by one for each signal handled. -/
theorem second_signal_aborts (sc : SlackCat) (g : Globals) (hs : g.errStatus ≠ 0) (w : World)
    (first : String) :
    sc.trap g [] w = .ret 0 w ∧
      sc.trap g [first] w = .ret 1
        { w with trace := w.trace ++ [Effect.output ("got signal: " ++ first),
            Effect.output "press ctrl+c again to exit immediately", Effect.goExit] } ∧
      (∀ (second : String) (rest : List String), ∃ c : Nat, c ≠ 0 ∧
        sc.trap g (first :: second :: rest) w = .halt c
          { w with trace := w.trace ++ [Effect.output ("got signal: " ++ first),
              Effect.output "press ctrl+c again to exit immediately", Effect.goExit,
              Effect.reportErr "aborted", Effect.osExit c] }) ∧
      (∀ (sigcount : Nat) (sig : String) (w1 w2 : World) (n : Nat),
        sc.trapSignal g sigcount sig w1 = .ret n w2 → n = sigcount + 1) ∧
      (∀ (sigcount : Nat) (signals : List String) (w1 w2 : World) (n : Nat),
        sc.trapLoop g sigcount signals w1 = .ret n w2 → sigcount ≤ n) := by
  refine ⟨rfl, ?_, ?_, ?_, ?_⟩
  · unfold SlackCat.trap
    rw [trapLoop_cons_ret sc g 0 1 first [] w _ (trapSignal_first sc g first w)]
    rfl
  · intro second rest
    refine ⟨g.errStatus, hs, ?_⟩
    unfold SlackCat.trap
    rw [trapLoop_cons_ret sc g 0 1 first _ w _ (trapSignal_first sc g first w),
      trapLoop_cons_halt sc g 1 _ second rest _ _
        (trapSignal_again sc g 1 second _ Nat.one_pos)]
    simp only [List.append_assoc]
    rfl
  · intro sigcount sig w1 w2 n h
    exact trapSignal_counts sc g sigcount sig w1 w2 n h
  · intro sigcount signals w1 w2 n h
    exact trapLoop_counts sc g signals sigcount n w1 w2 h

/-- Two interrupts with three lines still queued: the process ends with status
1 and the error "aborted", the queue untouched. -/
theorem second_signal_aborts_witness :
    liveGlobals.errStatus ≠ 0 ∧
      demoCat.trap liveGlobals ["interrupt", "interrupt"] threeQueued = .halt 1
        { queue := { live := ["a<b", "c&d", "e"], staged := [] },
          trace := [Effect.output "got signal: interrupt",
            Effect.output "press ctrl+c again to exit immediately", Effect.goExit,
            Effect.reportErr "aborted", Effect.osExit 1] } ∧
      ∃ c : Nat, c ≠ 0 ∧
        demoCat.trap liveGlobals ["interrupt", "interrupt"] threeQueued = .halt c
          { threeQueued with trace := threeQueued.trace ++
              [Effect.output ("got signal: " ++ "interrupt"),
              Effect.output "press ctrl+c again to exit immediately", Effect.goExit,
              Effect.reportErr "aborted", Effect.osExit c] } :=
  ⟨by decide, by decide,
    (second_signal_aborts demoCat liveGlobals (by decide) threeQueued "interrupt").2.2.1
      "interrupt" []⟩

theorem exit_cons_ret (sc : SlackCat) (f : StreamQ → StreamQ)
    (rest : List (StreamQ → StreamQ)) (w w1 : World) (h : sc.exitPoll w = .ret () w1) :
    sc.exit (f :: rest) w = sc.exit rest { w1 with queue := f w1.queue } := by
  simp only [SlackCat.exit, prog_bind, h, interfere]

theorem exit_cons_halt (sc : SlackCat) (f : StreamQ → StreamQ)
    (rest : List (StreamQ → StreamQ)) (w w1 : World) (c : Nat)
    (h : sc.exitPoll w = .halt c w1) :
    sc.exit (f :: rest) w = .halt c w1 := by
  simp only [SlackCat.exit, prog_bind, h]

theorem queueAtPoll_succ (q : StreamQ) (f : StreamQ → StreamQ)
    (rest : List (StreamQ → StreamQ)) (i : Nat) :
    queueAtPoll q (f :: rest) (i + 1) = queueAtPoll (f q) rest i := by
  simp [queueAtPoll]

/-- C7: for every queue and every behaviour of the other goroutines between
the polls of the drain watcher, there is a number `k` of polls that found the
queue non-empty, each followed by the report "flushing remaining messages to
Slack..." and a sleep of 3 seconds and none of them terminating the process;
then either the observed rounds are used up and the watcher is still running,
or poll number `k` is the first that finds the queue empty and the watcher
terminates the process there with status 0. -/
theorem watcher_exits_at_first_empty_poll (sc : SlackCat) (others : List (StreamQ → StreamQ)) :
    ∀ w : World, ∃ k : Nat,
      (∀ i, i < k → (queueAtPoll w.queue others i).IsEmpty = false) ∧
      ((k = others.length ∧
          sc.exit others w = .ret ()
            { queue := queueAtPoll w.queue others k,
              trace := w.trace ++ (List.replicate k pollRound).flatten }) ∨
        (k < others.length ∧ (queueAtPoll w.queue others k).IsEmpty = true ∧
          sc.exit others w = .halt 0
            { queue := queueAtPoll w.queue others k,
              trace := w.trace ++ (List.replicate k pollRound).flatten ++
                [Effect.qIsEmpty true, Effect.osExit 0] })) := by
  induction others with
  | nil =>
    intro w
    refine ⟨0, fun i hi => absurd hi (Nat.not_lt_zero i), Or.inl ⟨rfl, ?_⟩⟩
    simp [SlackCat.exit, prog_pure, queueAtPoll]
  | cons f rest ih =>
    intro w
    cases hq : w.queue.IsEmpty with
    | true =>
      refine ⟨0, fun i hi => absurd hi (Nat.not_lt_zero i), Or.inr ⟨Nat.succ_pos _, ?_, ?_⟩⟩
      · simpa [queueAtPoll] using hq
      · rw [exit_cons_halt sc f rest w _ 0 (exitPoll_empty sc w hq)]
        simp [queueAtPoll]
    | false =>
      obtain ⟨k, hk, hcase⟩ := ih { queue := f w.queue, trace := w.trace ++ pollRound }
      refine ⟨k + 1, ?_, ?_⟩
      · intro i hi
        cases i with
        | zero => simpa [queueAtPoll] using hq
        | succ j =>
          rw [queueAtPoll_succ]
          exact hk j (Nat.lt_of_succ_lt_succ hi)
      · rw [exit_cons_ret sc f rest w _ (exitPoll_nonempty sc w hq)]
        rw [queueAtPoll_succ]
        rcases hcase with ⟨hlen, hrun⟩ | ⟨hlen, hemp, hrun⟩
        · refine Or.inl ⟨by simp [hlen], ?_⟩
          rw [hrun]
          simp [List.replicate_succ, List.append_assoc]
        · refine Or.inr ⟨by simpa using hlen, hemp, ?_⟩
          rw [hrun]
          simp [List.replicate_succ, List.append_assoc]

/-! ## Channel lookup (C8) and file upload (C9) -/

theorem lookup_channel (sc : SlackCat) (g : Globals) (w : World) (id : String)
    (h : sc.api.FindChannelByName sc.channelName = some id) :
    sc.lookupSlackID g w = .ret id
      { w with trace := w.trace ++ [Effect.find "channel" sc.channelName true] } := by
  simp only [SlackCat.lookupSlackID, prog_bind, findChannelByName, h, prog_pure,
    Option.isSome_some]

theorem lookup_group (sc : SlackCat) (g : Globals) (w : World) (id : String)
    (h1 : sc.api.FindChannelByName sc.channelName = none)
    (h2 : sc.api.FindGroupByName sc.channelName = some id) :
    sc.lookupSlackID g w = .ret id
      { w with trace := w.trace ++ [Effect.find "channel" sc.channelName false,
          Effect.find "group" sc.channelName true] } := by
  simp only [SlackCat.lookupSlackID, prog_bind, findChannelByName, findGroupByName, h1, h2,
    prog_pure, Option.isSome_some, Option.isSome_none, List.append_assoc]
  rfl

theorem lookup_im (sc : SlackCat) (g : Globals) (w : World) (id : String)
    (h1 : sc.api.FindChannelByName sc.channelName = none)
    (h2 : sc.api.FindGroupByName sc.channelName = none)
    (h3 : sc.api.FindImByName sc.channelName = some id) :
    sc.lookupSlackID g w = .ret id
      { w with trace := w.trace ++ [Effect.find "channel" sc.channelName false,
          Effect.find "group" sc.channelName false, Effect.find "im" sc.channelName true] } := by
  simp only [SlackCat.lookupSlackID, prog_bind, findChannelByName, findGroupByName,
    findImByName, h1, h2, h3, prog_pure, Option.isSome_some, Option.isSome_none,
    List.append_assoc]
  rfl

theorem lookup_none (sc : SlackCat) (g : Globals) (w : World)
    (h1 : sc.api.FindChannelByName sc.channelName = none)
    (h2 : sc.api.FindGroupByName sc.channelName = none)
    (h3 : sc.api.FindImByName sc.channelName = none) :
    sc.lookupSlackID g w = .halt g.errStatus
      { w with trace := w.trace ++ [Effect.find "channel" sc.channelName false,
          Effect.find "group" sc.channelName false, Effect.find "im" sc.channelName false,
          Effect.reportErr "No such channel, group, or im", Effect.osExit g.errStatus] } := by
  simp only [SlackCat.lookupSlackID, prog_bind, findChannelByName, findGroupByName,
    findImByName, h1, h2, h3, exitErr, emit, osExit, Option.isSome_none, List.append_assoc]
  rfl

/-- C8, as the claim states it, fails: when all three lookups fail the error
reported is "No such channel, group, or im", with a capital N, and not the
text "no such channel, group, or im" of the claim. -/
theorem lookupSlackID_claimed_text_not_reported :
    ¬ (((downCat.lookupSlackID liveGlobals World.init).status.isSome = true ∧
          Effect.reportErr "no such channel, group, or im" ∈
            (downCat.lookupSlackID liveGlobals World.init).world.trace) ↔
        (downCat.api.FindChannelByName downCat.channelName = none ∧
          downCat.api.FindGroupByName downCat.channelName = none ∧
          downCat.api.FindImByName downCat.channelName = none)) := by
  decide

/-- C8, amended: `lookupSlackID` returns the public channel's id whenever the
channel lookup succeeds, otherwise the private group's id whenever the group
lookup succeeds, otherwise the direct-message id whenever the im lookup
succeeds (a later lookup is not even made); it terminates the process if and
only if all three lookups fail, and then with the non-zero status of
`exitErr` and the error "No such channel, group, or im". -/
theorem lookupSlackID_priority (sc : SlackCat) (g : Globals) (hs : g.errStatus ≠ 0)
    (w : World) :
    (∀ id, sc.api.FindChannelByName sc.channelName = some id →
        sc.lookupSlackID g w = .ret id
          { w with trace := w.trace ++ [Effect.find "channel" sc.channelName true] }) ∧
      (∀ id, sc.api.FindChannelByName sc.channelName = none →
        sc.api.FindGroupByName sc.channelName = some id →
        sc.lookupSlackID g w = .ret id
          { w with trace := w.trace ++ [Effect.find "channel" sc.channelName false,
              Effect.find "group" sc.channelName true] }) ∧
      (∀ id, sc.api.FindChannelByName sc.channelName = none →
        sc.api.FindGroupByName sc.channelName = none →
        sc.api.FindImByName sc.channelName = some id →
        sc.lookupSlackID g w = .ret id
          { w with trace := w.trace ++ [Effect.find "channel" sc.channelName false,
              Effect.find "group" sc.channelName false,
              Effect.find "im" sc.channelName true] }) ∧
      (sc.api.FindChannelByName sc.channelName = none →
        sc.api.FindGroupByName sc.channelName = none →
        sc.api.FindImByName sc.channelName = none →
        ∃ c : Nat, c ≠ 0 ∧ sc.lookupSlackID g w = .halt c
          { w with trace := w.trace ++ [Effect.find "channel" sc.channelName false,
              Effect.find "group" sc.channelName false,
              Effect.find "im" sc.channelName false,
              Effect.reportErr "No such channel, group, or im", Effect.osExit c] }) ∧
      ((sc.lookupSlackID g w).status.isSome = true ↔
        (sc.api.FindChannelByName sc.channelName = none ∧
          sc.api.FindGroupByName sc.channelName = none ∧
          sc.api.FindImByName sc.channelName = none)) := by
  refine ⟨fun id h => lookup_channel sc g w id h, fun id h1 h2 => lookup_group sc g w id h1 h2,
    fun id h1 h2 h3 => lookup_im sc g w id h1 h2 h3,
    fun h1 h2 h3 => ⟨g.errStatus, hs, lookup_none sc g w h1 h2 h3⟩, ?_⟩
  cases h1 : sc.api.FindChannelByName sc.channelName with
  | some id => simp [lookup_channel sc g w id h1, Step.status]
  | none =>
    cases h2 : sc.api.FindGroupByName sc.channelName with
    | some id => simp [lookup_group sc g w id h1 h2, Step.status]
    | none =>
      cases h3 : sc.api.FindImByName sc.channelName with
      | some id => simp [lookup_im sc g w id h1 h2 h3, Step.status]
      | none => simp [lookup_none sc g w h1 h2 h3, Step.status]

/-- The name is a private group on the working client and unknown to the
failing one. -/
theorem lookupSlackID_priority_witness :
    liveGlobals.errStatus ≠ 0 ∧
      demoCat.lookupSlackID liveGlobals World.init = .ret "G1"
        { queue := newStreamQ,
          trace := [Effect.find "channel" "general" false, Effect.find "group" "general" true] } ∧
      downCat.lookupSlackID liveGlobals World.init = .halt 1
        { queue := newStreamQ,
          trace := [Effect.find "channel" "general" false, Effect.find "group" "general" false,
            Effect.find "im" "general" false,
            Effect.reportErr "No such channel, group, or im", Effect.osExit 1] } ∧
      ((downCat.lookupSlackID liveGlobals World.init).status.isSome = true ↔
        (downCat.api.FindChannelByName downCat.channelName = none ∧
          downCat.api.FindGroupByName downCat.channelName = none ∧
          downCat.api.FindImByName downCat.channelName = none)) :=
  ⟨by decide,
    (lookupSlackID_priority demoCat liveGlobals (by decide) World.init).2.1 "G1" rfl rfl,
    by decide,
    (lookupSlackID_priority downCat liveGlobals (by decide) World.init).2.2.2.2⟩

/-- C9, as the claim states it, fails: in dry-run mode `postFile` reports the
skipped upload and returns to its caller; it does not terminate the process
and makes no call of `os.Exit`. -/
theorem postFile_dry_run_does_not_exit :
    demoCat.postFile dryGlobals demoClock "/tmp/out.txt" "out.txt" "text" "hello" World.init =
        .ret () { queue := newStreamQ,
                  trace := [Effect.output "skipping upload of file out.txt to general"] } ∧
      (demoCat.postFile dryGlobals demoClock "/tmp/out.txt" "out.txt" "text" "hello"
        World.init).status ≠ some 0 := by
  decide

/-- C9, amended: for every file path, name, type and comment, with the display
name being the given name or, when that is empty, the decimal Unix time:
when the upload succeeds, `postFile` reports it and terminates the process
immediately with status 0; in dry-run mode it reports the skipped upload, does
not invoke the upload at all, and returns to its caller without terminating
the process itself. -/
theorem postFile_outcomes (sc : SlackCat) (g : Globals) (clock : Clock)
    (filePath fileName fileType fileComment : String) (w : World) :
    (g.noop = true →
        sc.postFile g clock filePath fileName fileType fileComment w = .ret ()
          { w with trace := w.trace ++
              [Effect.output ("skipping upload of file " ++
                (if fileName = "" then toString clock.unix else fileName) ++ " to " ++
                sc.channelName)] }) ∧
      (g.noop = false →
        sc.api.FilesUpload w.trace filePath
            (if fileName = "" then toString clock.unix else fileName) fileType
            (if fileName = "" then toString clock.unix else fileName) fileComment
            [sc.channelID] = none →
        sc.postFile g clock filePath fileName fileType fileComment w = .halt 0
          { w with trace := w.trace ++
              [Effect.filesUpload filePath
                (if fileName = "" then toString clock.unix else fileName) fileType
                (if fileName = "" then toString clock.unix else fileName) fileComment
                [sc.channelID] none,
              Effect.output ("file " ++
                (if fileName = "" then toString clock.unix else fileName) ++ " uploaded to " ++
                sc.channelName ++ " (" ++ clock.elapsed ++ "s)"),
              Effect.osExit 0] }) := by
  constructor
  · intro hn
    simp only [SlackCat.postFile, hn, if_true, output, emit]
  · intro hn hup
    simp only [SlackCat.postFile, hn, Bool.false_eq_true, if_false, prog_bind, filesUpload, hup,
      failOnError_none, output, emit, osExit, List.append_assoc]
    rfl

end Slackcat
